import Mathlib

/-!
Verification development for the Migration Replay & Schema Drift Engine of
pg-schema-sage.  The TypeScript sources `src/services/schema-analyzer.ts` and
`src/services/migration-parser.ts` are shallowly embedded below: strings are
`List Char`, JavaScript `Map`s are association lists with overwrite-on-insert,
in-place array mutation is explicit state passing, and the hand-written
regular expressions of the source are translated matcher by matcher
(maximal munch is exact for `\s+` and `\w+` here because every following
token starts with a non-whitespace, non-word character or fails; the optional
groups backtrack through `Option.orElse`).  `fs` access is modelled by a
`FileSys` record carrying the directory listing (or a filesystem error) and
a content lookup.  `String.prototype.localeCompare` on versions is modelled
as character-code lexicographic comparison, exact for the digit strings the
loader produces; `Array.prototype.sort` is modelled as a stable insertion
sort, matching the ECMAScript stable-sort requirement.
-/

namespace PgSchemaSage

/-- Strings are modelled as lists of characters. -/
abbrev Str := List Char

/-! ### String utilities shared by both services -/

/-- JS `String.prototype.trim` (whitespace at both ends; the source only ever
meets ASCII whitespace, for which `Char.isWhitespace` agrees with JS). -/
def trim (l : Str) : Str :=
  ((l.reverse.dropWhile Char.isWhitespace).reverse).dropWhile Char.isWhitespace

/-- JS `String.prototype.split(sep)` for a one-character separator. -/
def splitChar (sep : Char) : Str → List Str
  | [] => [[]]
  | c :: rest =>
    if c = sep then [] :: splitChar sep rest
    else
      match splitChar sep rest with
      | [] => [[c]]
      | l :: ls => (c :: l) :: ls

/-- Number of occurrences of `pat` in `s` (JS substring search counts
matching start positions; the claims only need 0, 1 and 2). -/
def countOccur (pat : Str) : Str → Nat
  | [] => if pat = [] then 1 else 0
  | c :: rest => (if pat.isPrefixOf (c :: rest) then 1 else 0) + countOccur pat rest

/-- JS `String.prototype.includes`. -/
def containsSub (pat : Str) : Str → Bool
  | [] => pat.isPrefixOf []
  | c :: rest => pat.isPrefixOf (c :: rest) || containsSub pat rest

/-- Uppercase a string, JS `toUpperCase` (ASCII). -/
def upper (l : Str) : Str := l.map Char.toUpper

/-- `Nat` rendered in decimal, for template interpolation of `.length`. -/
def natToStr (n : Nat) : Str := (Nat.repr n).data

/-- `Array.prototype.join(sep)`. -/
def joinSep (sep : Str) : List Str → Str
  | [] => []
  | [x] => x
  | x :: y :: rest => x ++ sep ++ joinSep sep (y :: rest)

/-! ### Regex building blocks

Each regex of the source is compiled by hand into a matcher at a fixed
position plus an unanchored search (`String.prototype.match` scans start
positions left to right). -/

/-- `\s+` with maximal munch (exact here: every token following `\s+` in the
source patterns begins with a non-whitespace character). -/
def ws1 : Str → Option Str
  | c :: rest => if c.isWhitespace then some (rest.dropWhile Char.isWhitespace) else none
  | [] => none

/-- JS `\w`: `[A-Za-z0-9_]`. -/
def isWordChar (c : Char) : Bool := c.isAlphanum || c = '_'

/-- `(\w+)` with maximal munch, returning the capture and the rest (exact
here: no source pattern follows `\w+` with a word character). -/
def word1 (s : Str) : Option (Str × Str) :=
  match s with
  | c :: _ => if isWordChar c then some (s.takeWhile isWordChar, s.dropWhile isWordChar) else none
  | [] => none

/-- Case-insensitive literal, the `/.../i` flag on plain text. -/
def litCI (pat : Str) (s : Str) : Option Str :=
  if (s.take pat.length).map Char.toLower = pat.map Char.toLower then some (s.drop pat.length)
  else none

/-- `(?:(\w+)\.)?(\w+)`: optional schema qualifier then object name, with the
regex backtracking order (qualified parse first, bare name on failure).
Returns (captured schema, name, rest). -/
def qualName (s : Str) : Option (Option Str × Str × Str) :=
  (match word1 s with
   | some (w, rest) =>
     match rest with
     | '.' :: rest2 => (word1 rest2).map fun p => (some w, p.1, p.2)
     | _ => none
   | none => none)
  <|> (word1 s).map fun p => ((none : Option Str), p.1, p.2)

/-- Unanchored search: first start position where `f` matches. -/
def searchAt {α : Type} (f : Str → Option α) : Str → Option α
  | [] => f []
  | c :: rest => f (c :: rest) <|> searchAt f rest

/-! ### Data model (`src/types/schema.ts`, `src/types/migration.ts`) -/

structure Column where
  name : Str
  dataType : Str
  isNullable : Bool
  defaultValue : Option Str := none
  isGenerated : Bool
  ordinalPosition : Nat
  characterMaximumLength : Option Nat := none
  numericPrecision : Option Nat := none
  numericScale : Option Nat := none
deriving DecidableEq

structure Constraint where
  name : Str
  type : Str
  columns : List Str
  isDeferrable : Bool := false
  isDeferred : Bool := false
deriving DecidableEq

structure IndexColumn where
  name : Str
  direction : Str
deriving DecidableEq

structure Index where
  name : Str
  tableName : Str
  schemaName : Str
  columns : List IndexColumn
  isUnique : Bool
  isPrimary : Bool
  method : Str
  condition : Option Str := none
  isConcurrent : Bool
deriving DecidableEq

structure Table where
  schema : Str
  name : Str
  columns : List Column
  constraints : List Constraint
  indexes : List Index
deriving DecidableEq

structure View where
  schema : Str
  name : Str
  definition : Str
  columns : List Str
  owner : Str
  dependencies : List Str
  isUpdatable : Bool
  hasInsteadOfTriggers : Bool
deriving DecidableEq

structure Trigger where
  schema : Str
  name : Str
  tableName : Str
  timing : Str
  events : List Str
  orientation : Str
  functionName : Str
  functionSchema : Str
  definition : Str
  isConstraint : Bool
  isEnabled : Bool
deriving DecidableEq

structure RLSPolicy where
  schema : Str
  tableName : Str
  policyName : Str
  permissive : Bool
  roles : List Str
  command : Str
deriving DecidableEq

structure Enum where
  schema : Str
  name : Str
  values : List Str
deriving DecidableEq

structure Extension where
  name : Str
  version : Str
  schema : Str
deriving DecidableEq

structure SqlFunction where
  schema : Str
  name : Str
  returnType : Str
  language : Str
  definition : Str
deriving DecidableEq

structure DatabaseSchema where
  tables : List Table
  views : List View
  enums : List Enum
  functions : List SqlFunction
  extensions : List Extension
  indexes : List Index
  triggers : List Trigger
  rlsPolicies : List RLSPolicy
deriving DecidableEq

/-- The fresh model that replay starts from (`buildExpectedSchemaFromMigrations`). -/
def emptySchema : DatabaseSchema :=
  { tables := [], views := [], enums := [], functions := [], extensions := []
    indexes := [], triggers := [], rlsPolicies := [] }

structure Migration where
  version : Str
  name : Str
  filename : Str
  upSql : Str
  downSql : Str
  appliedAt : Option Nat := none
deriving DecidableEq

structure ParsedMigration where
  version : Str
  name : Str
  upSql : Str
  downSql : Str
  hasValidStructure : Bool
  errors : List Str
deriving DecidableEq

structure MigrationFile where
  filename : Str
  content : Str
  parsed : ParsedMigration
deriving DecidableEq

structure AppliedMigration where
  version : Str
  appliedAt : Nat
deriving DecidableEq

structure MigrationHistory where
  appliedMigrations : List AppliedMigration
  pendingMigrations : List Migration
  totalMigrations : Nat
  lastAppliedVersion : Option Str
  migrationChain : List Migration
deriving DecidableEq

structure MigrationError where
  filename : Str
  type : Str
  message : Str
deriving DecidableEq

structure MigrationAnalysis where
  totalFiles : Nat
  validMigrations : Nat
  invalidMigrations : Nat
  missingDownMigrations : Nat
  duplicateVersions : List Str
  migrationChain : List Migration
  errors : List MigrationError
deriving DecidableEq

structure ColumnChange where
  property : Str
  expected : Str
  actual : Str
deriving DecidableEq

structure ColumnDrift where
  columnName : Str
  changes : List ColumnChange
deriving DecidableEq

structure TableDrift where
  tableName : Str
  missingColumns : List Str
  extraColumns : List Str
  modifiedColumns : List ColumnDrift
  missingConstraints : List Str
  extraConstraints : List Str
deriving DecidableEq

structure ViewDrift where
  viewName : Str
  definitionChanged : Bool
  oldDefinition : Option Str
  newDefinition : Option Str
deriving DecidableEq

structure SchemaDrift where
  hasChanges : Bool
  missingTables : List Str
  extraTables : List Str
  modifiedTables : List TableDrift
  missingIndexes : List Str
  extraIndexes : List Str
  missingViews : List Str
  extraViews : List Str
  modifiedViews : List ViewDrift
  missingTriggers : List Str
  extraTriggers : List Str
  missingRLSPolicies : List Str
  extraRLSPolicies : List Str
  summary : Str
deriving DecidableEq

/-! ### JavaScript `Map` model

`new Map(pairs)` inserts left to right; a repeated key overwrites the value
but keeps the first insertion position.  Iteration and `.keys()` follow that
insertion order. -/

def mapInsert {α : Type} (m : List (Str × α)) (k : Str) (v : α) : List (Str × α) :=
  if m.any (fun p => decide (p.1 = k)) then
    m.map (fun p => if p.1 = k then (k, v) else p)
  else m ++ [(k, v)]

def mkMap {α : Type} (l : List (Str × α)) : List (Str × α) :=
  l.foldl (fun m p => mapInsert m p.1 p.2) []

def hasKey {α : Type} (m : List (Str × α)) (k : Str) : Bool :=
  m.any (fun p => decide (p.1 = k))

/-- `map.get(k)`; in the source every `get` is guarded by `has`. -/
def getVal {α : Type} (m : List (Str × α)) (k : Str) : Option α :=
  (m.find? (fun p => decide (p.1 = k))).map (·.2)

/-! ### SchemaAnalyzer: regex matchers

One matcher per regular expression of `schema-analyzer.ts`, each applied with
an unanchored search. -/

/-- `/CREATE TABLE\s+(?:IF NOT EXISTS\s+)?(?:(\w+)\.)?(\w+)/i` -/
def createTableMatch : Str → Option (Option Str × Str) :=
  searchAt fun s =>
    (litCI ("CREATE TABLE".data) s).bind fun s1 =>
    (ws1 s1).bind fun s2 =>
    let nameAt : Str → Option (Option Str × Str) := fun t =>
      (qualName t).map fun r => (r.1, r.2.1)
    ((litCI ("IF NOT EXISTS".data) s2).bind fun s3 => (ws1 s3).bind nameAt) <|> nameAt s2

/-- `/DROP TABLE\s+(?:IF EXISTS\s+)?(?:(\w+)\.)?(\w+)/i` -/
def dropTableMatch : Str → Option (Option Str × Str) :=
  searchAt fun s =>
    (litCI ("DROP TABLE".data) s).bind fun s1 =>
    (ws1 s1).bind fun s2 =>
    let nameAt : Str → Option (Option Str × Str) := fun t =>
      (qualName t).map fun r => (r.1, r.2.1)
    ((litCI ("IF EXISTS".data) s2).bind fun s3 => (ws1 s3).bind nameAt) <|> nameAt s2

/-- `/ALTER TABLE\s+(?:(\w+)\.)?(\w+)\s+ADD COLUMN\s+(\w+)/i` -/
def addColumnMatch : Str → Option (Option Str × Str × Str) :=
  searchAt fun s =>
    (litCI ("ALTER TABLE".data) s).bind fun s1 =>
    (ws1 s1).bind fun s2 =>
    (qualName s2).bind fun r =>
    (ws1 r.2.2).bind fun s3 =>
    (litCI ("ADD COLUMN".data) s3).bind fun s4 =>
    (ws1 s4).bind fun s5 =>
    (word1 s5).map fun p => (r.1, r.2.1, p.1)

/-- `/ALTER TABLE\s+(?:(\w+)\.)?(\w+)\s+DROP COLUMN\s+(\w+)/i` -/
def dropColumnMatch : Str → Option (Option Str × Str × Str) :=
  searchAt fun s =>
    (litCI ("ALTER TABLE".data) s).bind fun s1 =>
    (ws1 s1).bind fun s2 =>
    (qualName s2).bind fun r =>
    (ws1 r.2.2).bind fun s3 =>
    (litCI ("DROP COLUMN".data) s3).bind fun s4 =>
    (ws1 s4).bind fun s5 =>
    (word1 s5).map fun p => (r.1, r.2.1, p.1)

/-- `/CREATE\s+(?:UNIQUE\s+)?INDEX\s+(?:CONCURRENTLY\s+)?(\w+)\s+ON\s+(?:(\w+)\.)?(\w+)/i`,
returning (index name, captured schema, table name). -/
def createIndexMatch : Str → Option (Str × Option Str × Str) :=
  searchAt fun s =>
    (litCI ("CREATE".data) s).bind fun s1 =>
    (ws1 s1).bind fun s2 =>
    let afterIndex : Str → Option (Str × Option Str × Str) := fun t =>
      (litCI ("INDEX".data) t).bind fun t1 =>
      (ws1 t1).bind fun t2 =>
      let nameOn : Str → Option (Str × Option Str × Str) := fun u =>
        (word1 u).bind fun p =>
        (ws1 p.2).bind fun u1 =>
        (litCI ("ON".data) u1).bind fun u2 =>
        (ws1 u2).bind fun u3 =>
        (qualName u3).map fun r => (p.1, r.1, r.2.1)
      ((litCI ("CONCURRENTLY".data) t2).bind fun t3 => (ws1 t3).bind nameOn) <|> nameOn t2
    ((litCI ("UNIQUE".data) s2).bind fun s3 => (ws1 s3).bind afterIndex) <|> afterIndex s2

/-- `/DROP INDEX\s+(?:CONCURRENTLY\s+)?(?:IF EXISTS\s+)?(\w+)/i` -/
def dropIndexMatch : Str → Option Str :=
  searchAt fun s =>
    (litCI ("DROP INDEX".data) s).bind fun s1 =>
    (ws1 s1).bind fun s2 =>
    let nameAt : Str → Option Str := fun u => (word1 u).map (·.1)
    let afterExists : Str → Option Str := fun t =>
      ((litCI ("IF EXISTS".data) t).bind fun t1 => (ws1 t1).bind nameAt) <|> nameAt t
    ((litCI ("CONCURRENTLY".data) s2).bind fun s3 => (ws1 s3).bind afterExists) <|> afterExists s2

/-- `/CREATE\s+(?:OR\s+REPLACE\s+)?VIEW\s+(?:(\w+)\.)?(\w+)\s+AS/i` -/
def createViewMatch : Str → Option (Option Str × Str) :=
  searchAt fun s =>
    (litCI ("CREATE".data) s).bind fun s1 =>
    (ws1 s1).bind fun s2 =>
    let afterView : Str → Option (Option Str × Str) := fun t =>
      (litCI ("VIEW".data) t).bind fun t1 =>
      (ws1 t1).bind fun t2 =>
      (qualName t2).bind fun r =>
      (ws1 r.2.2).bind fun t3 =>
      (litCI ("AS".data) t3).map fun _ => (r.1, r.2.1)
    ((litCI ("OR".data) s2).bind fun s3 =>
      (ws1 s3).bind fun s4 =>
      (litCI ("REPLACE".data) s4).bind fun s5 =>
      (ws1 s5).bind afterView) <|> afterView s2

/-- `/DROP VIEW\s+(?:IF EXISTS\s+)?(?:(\w+)\.)?(\w+)/i` -/
def dropViewMatch : Str → Option (Option Str × Str) :=
  searchAt fun s =>
    (litCI ("DROP VIEW".data) s).bind fun s1 =>
    (ws1 s1).bind fun s2 =>
    let nameAt : Str → Option (Option Str × Str) := fun t =>
      (qualName t).map fun r => (r.1, r.2.1)
    ((litCI ("IF EXISTS".data) s2).bind fun s3 => (ws1 s3).bind nameAt) <|> nameAt s2

/-- `/CREATE TRIGGER\s+(\w+)/i` -/
def createTriggerMatch : Str → Option Str :=
  searchAt fun s =>
    (litCI ("CREATE TRIGGER".data) s).bind fun s1 =>
    (ws1 s1).bind fun s2 =>
    (word1 s2).map (·.1)

/-- `/DROP TRIGGER\s+(\w+)/i` -/
def dropTriggerMatch : Str → Option Str :=
  searchAt fun s =>
    (litCI ("DROP TRIGGER".data) s).bind fun s1 =>
    (ws1 s1).bind fun s2 =>
    (word1 s2).map (·.1)

/-- `/CREATE POLICY\s+(\w+)\s+ON\s+(?:(\w+)\.)?(\w+)/i`,
returning (policy name, captured schema, table name). -/
def createPolicyMatch : Str → Option (Str × Option Str × Str) :=
  searchAt fun s =>
    (litCI ("CREATE POLICY".data) s).bind fun s1 =>
    (ws1 s1).bind fun s2 =>
    (word1 s2).bind fun p =>
    (ws1 p.2).bind fun s3 =>
    (litCI ("ON".data) s3).bind fun s4 =>
    (ws1 s4).bind fun s5 =>
    (qualName s5).map fun r => (p.1, r.1, r.2.1)

/-- `/DROP POLICY\s+(\w+)\s+ON\s+(?:(\w+)\.)?(\w+)/i` -/
def dropPolicyMatch : Str → Option (Str × Option Str × Str) :=
  searchAt fun s =>
    (litCI ("DROP POLICY".data) s).bind fun s1 =>
    (ws1 s1).bind fun s2 =>
    (word1 s2).bind fun p =>
    (ws1 p.2).bind fun s3 =>
    (litCI ("ON".data) s3).bind fun s4 =>
    (ws1 s4).bind fun s5 =>
    (qualName s5).map fun r => (p.1, r.1, r.2.1)

/-! ### SchemaAnalyzer: replay (apply* functions) -/

def publicSchema : Str := "public".data

def applyCreateTable (schema : DatabaseSchema) (sql : Str) : DatabaseSchema :=
  match createTableMatch sql with
  | some (schemaGroup, tableName) =>
    let schemaName := schemaGroup.getD publicSchema
    let table : Table :=
      { schema := schemaName, name := tableName, columns := [], constraints := [], indexes := [] }
    { schema with tables := schema.tables ++ [table] }
  | none => schema

def applyDropTable (schema : DatabaseSchema) (sql : Str) : DatabaseSchema :=
  match dropTableMatch sql with
  | some (schemaGroup, tableName) =>
    let schemaName := schemaGroup.getD publicSchema
    { schema with
      tables := schema.tables.filter fun t => !(decide (t.schema = schemaName) && decide (t.name = tableName)) }
  | none => schema

def applyAddColumn (schema : DatabaseSchema) (sql : Str) : DatabaseSchema :=
  match addColumnMatch sql with
  | some (schemaGroup, tableName, columnName) =>
    let schemaName := schemaGroup.getD publicSchema
    { schema with
      tables := schema.tables.map fun t =>
        if t.schema = schemaName ∧ t.name = tableName then
          let column : Column :=
            { name := columnName, dataType := "text".data, isNullable := true
              isGenerated := false, ordinalPosition := t.columns.length + 1 }
          { t with columns := t.columns ++ [column] }
        else t }
  | none => schema

def applyDropColumn (schema : DatabaseSchema) (sql : Str) : DatabaseSchema :=
  match dropColumnMatch sql with
  | some (schemaGroup, tableName, columnName) =>
    let schemaName := schemaGroup.getD publicSchema
    { schema with
      tables := schema.tables.map fun t =>
        if t.schema = schemaName ∧ t.name = tableName then
          { t with columns := t.columns.filter fun c => !(decide (c.name = columnName)) }
        else t }
  | none => schema

def applyCreateIndex (schema : DatabaseSchema) (sql : Str) : DatabaseSchema :=
  match createIndexMatch sql with
  | some (indexName, schemaGroup, tableName) =>
    let schemaName := schemaGroup.getD publicSchema
    let index : Index :=
      { name := indexName, tableName := tableName, schemaName := schemaName, columns := []
        isUnique := containsSub ("UNIQUE".data) (upper sql), isPrimary := false
        method := "btree".data, isConcurrent := containsSub ("CONCURRENTLY".data) (upper sql) }
    { schema with indexes := schema.indexes ++ [index] }
  | none => schema

def applyDropIndex (schema : DatabaseSchema) (sql : Str) : DatabaseSchema :=
  match dropIndexMatch sql with
  | some indexName =>
    { schema with indexes := schema.indexes.filter fun i => !(decide (i.name = indexName)) }
  | none => schema

def applyCreateView (schema : DatabaseSchema) (sql : Str) : DatabaseSchema :=
  match createViewMatch sql with
  | some (schemaGroup, viewName) =>
    let schemaName := schemaGroup.getD publicSchema
    let remaining := schema.views.filter fun v =>
      !(decide (v.schema = schemaName) && decide (v.name = viewName))
    let view : View :=
      { schema := schemaName, name := viewName, definition := sql, columns := []
        owner := [], dependencies := [], isUpdatable := false, hasInsteadOfTriggers := false }
    { schema with views := remaining ++ [view] }
  | none => schema

def applyDropView (schema : DatabaseSchema) (sql : Str) : DatabaseSchema :=
  match dropViewMatch sql with
  | some (schemaGroup, viewName) =>
    let schemaName := schemaGroup.getD publicSchema
    { schema with
      views := schema.views.filter fun v =>
        !(decide (v.schema = schemaName) && decide (v.name = viewName)) }
  | none => schema

def applyCreateTrigger (schema : DatabaseSchema) (sql : Str) : DatabaseSchema :=
  match createTriggerMatch sql with
  | some triggerName =>
    let trigger : Trigger :=
      { schema := publicSchema, name := triggerName, tableName := [], timing := "BEFORE".data
        events := [], orientation := "ROW".data, functionName := [], functionSchema := []
        definition := sql, isConstraint := false, isEnabled := true }
    { schema with triggers := schema.triggers ++ [trigger] }
  | none => schema

def applyDropTrigger (schema : DatabaseSchema) (sql : Str) : DatabaseSchema :=
  match dropTriggerMatch sql with
  | some triggerName =>
    { schema with triggers := schema.triggers.filter fun t => !(decide (t.name = triggerName)) }
  | none => schema

def applyCreatePolicy (schema : DatabaseSchema) (sql : Str) : DatabaseSchema :=
  match createPolicyMatch sql with
  | some (policyName, schemaGroup, tableName) =>
    let schemaName := schemaGroup.getD publicSchema
    let policy : RLSPolicy :=
      { schema := schemaName, tableName := tableName, policyName := policyName
        permissive := true, roles := [], command := "ALL".data }
    { schema with rlsPolicies := schema.rlsPolicies ++ [policy] }
  | none => schema

def applyDropPolicy (schema : DatabaseSchema) (sql : Str) : DatabaseSchema :=
  match dropPolicyMatch sql with
  | some (policyName, schemaGroup, tableName) =>
    let schemaName := schemaGroup.getD publicSchema
    { schema with
      rlsPolicies := schema.rlsPolicies.filter fun p =>
        !(decide (p.schema = schemaName) && decide (p.tableName = tableName)
          && decide (p.policyName = policyName)) }
  | none => schema

/-! ### SchemaAnalyzer: statement classifier and fold -/

structure ParsedOp where
  type : Str
  sql : Str
deriving DecidableEq

/-- The if/else chain of `parseMigrationOperations` applied to a single
trimmed nonempty statement. -/
def classifyStatement (statement : Str) : Option ParsedOp :=
  let upperStatement := upper statement
  if ("CREATE TABLE".data).isPrefixOf upperStatement then
    some { type := "CREATE_TABLE".data, sql := statement }
  else if ("DROP TABLE".data).isPrefixOf upperStatement then
    some { type := "DROP_TABLE".data, sql := statement }
  else if ("ALTER TABLE".data).isPrefixOf upperStatement
      && containsSub ("ADD COLUMN".data) upperStatement then
    some { type := "ADD_COLUMN".data, sql := statement }
  else if ("ALTER TABLE".data).isPrefixOf upperStatement
      && containsSub ("DROP COLUMN".data) upperStatement then
    some { type := "DROP_COLUMN".data, sql := statement }
  else if ("CREATE INDEX".data).isPrefixOf upperStatement
      || ("CREATE UNIQUE INDEX".data).isPrefixOf upperStatement then
    some { type := "CREATE_INDEX".data, sql := statement }
  else if ("DROP INDEX".data).isPrefixOf upperStatement then
    some { type := "DROP_INDEX".data, sql := statement }
  else none

/-- `parseMigrationOperations`: split on `;`, trim, drop empties, classify.
Each loop iteration pushes at most one operation, so the loop is a
`filterMap`. -/
def parseMigrationOperations (sql : Str) : List ParsedOp :=
  (((splitChar ';' sql).map trim).filter fun s => 0 < s.length).filterMap classifyStatement

/-- The `switch` of `applyMigrationToSchema` for one operation.  All twelve
cases of the source appear; the classifier above only ever produces the
first six type strings. -/
def applyOperation (schema : DatabaseSchema) (operation : ParsedOp) : DatabaseSchema :=
  if operation.type = ("CREATE_TABLE".data) then applyCreateTable schema operation.sql
  else if operation.type = ("DROP_TABLE".data) then applyDropTable schema operation.sql
  else if operation.type = ("ADD_COLUMN".data) then applyAddColumn schema operation.sql
  else if operation.type = ("DROP_COLUMN".data) then applyDropColumn schema operation.sql
  else if operation.type = ("CREATE_INDEX".data) then applyCreateIndex schema operation.sql
  else if operation.type = ("DROP_INDEX".data) then applyDropIndex schema operation.sql
  else if operation.type = ("CREATE_VIEW".data) then applyCreateView schema operation.sql
  else if operation.type = ("DROP_VIEW".data) then applyDropView schema operation.sql
  else if operation.type = ("CREATE_TRIGGER".data) then applyCreateTrigger schema operation.sql
  else if operation.type = ("DROP_TRIGGER".data) then applyDropTrigger schema operation.sql
  else if operation.type = ("CREATE_POLICY".data) then applyCreatePolicy schema operation.sql
  else if operation.type = ("DROP_POLICY".data) then applyDropPolicy schema operation.sql
  else schema

def applyMigrationToSchema (schema : DatabaseSchema) (migration : Migration) : DatabaseSchema :=
  (parseMigrationOperations migration.upSql).foldl applyOperation schema

def buildExpectedSchemaFromMigrations (migrations : List Migration) : DatabaseSchema :=
  migrations.foldl applyMigrationToSchema emptySchema

/-! ### SchemaDiffEngine (`compareSchemas` and helpers)

Each `for (const [k, v] of expectedMap) { if (!actualMap.has(k)) … else … }`
loop appends to two independent lists, so it is split into a filter (the
missing keys) and a filterMap (the modified entries); the
`for (k of actualMap.keys())` loop is the extra-keys filter. -/

def keyMissing {α β : Type} (expectedMap : List (Str × α)) (actualMap : List (Str × β)) :
    List Str :=
  (expectedMap.filter fun p => !hasKey actualMap p.1).map (·.1)

def keyExtra {α β : Type} (expectedMap : List (Str × α)) (actualMap : List (Str × β)) :
    List Str :=
  (actualMap.map (·.1)).filter fun k => !hasKey expectedMap k

/-- Modified entries: for keys present on both sides, compare the two values;
`f` returns the drift entry when the comparison reports changes.  The `none`
branch of `getVal` corresponds to a key absent from `actualMap` (the source
guards `.get()!` with `.has()`). -/
def keyModified {α β : Type} (expectedMap actualMap : List (Str × α)) (f : α → α → Option β) :
    List β :=
  expectedMap.filterMap fun p =>
    match getVal actualMap p.1 with
    | some actualValue => f p.2 actualValue
    | none => none

/-- One `{property, expected, actual}` entry per differing column property. -/
def compareColumn (expected actual : Column) : ColumnDrift :=
  let boolStr : Bool → Str := fun b => if b then "true".data else "false".data
  let orNullStr : Option Str → Str := fun o =>
    match o with
    | some s => if s = [] then "null".data else s
    | none => "null".data
  let orNullNat : Option Nat → Str := fun o =>
    match o with
    | some n => natToStr n
    | none => "null".data
  let changes : List ColumnChange :=
    (if expected.dataType ≠ actual.dataType then
      [{ property := "dataType".data, expected := expected.dataType, actual := actual.dataType }]
     else []) ++
    (if expected.isNullable ≠ actual.isNullable then
      [{ property := "isNullable".data, expected := boolStr expected.isNullable
         actual := boolStr actual.isNullable }]
     else []) ++
    (if expected.defaultValue ≠ actual.defaultValue then
      [{ property := "defaultValue".data, expected := orNullStr expected.defaultValue
         actual := orNullStr actual.defaultValue }]
     else []) ++
    (if expected.characterMaximumLength ≠ actual.characterMaximumLength then
      [{ property := "characterMaximumLength".data
         expected := orNullNat expected.characterMaximumLength
         actual := orNullNat actual.characterMaximumLength }]
     else []) ++
    (if expected.numericPrecision ≠ actual.numericPrecision then
      [{ property := "numericPrecision".data, expected := orNullNat expected.numericPrecision
         actual := orNullNat actual.numericPrecision }]
     else []) ++
    (if expected.numericScale ≠ actual.numericScale then
      [{ property := "numericScale".data, expected := orNullNat expected.numericScale
         actual := orNullNat actual.numericScale }]
     else [])
  { columnName := expected.name, changes := changes }

def compareTable (expected actual : Table) : TableDrift :=
  let expectedColumnMap := mkMap (expected.columns.map fun c => (c.name, c))
  let actualColumnMap := mkMap (actual.columns.map fun c => (c.name, c))
  let expectedConstraintMap := mkMap (expected.constraints.map fun c => (c.name, c))
  let actualConstraintMap := mkMap (actual.constraints.map fun c => (c.name, c))
  { tableName := expected.schema ++ '.' :: expected.name
    missingColumns := keyMissing expectedColumnMap actualColumnMap
    extraColumns := keyExtra expectedColumnMap actualColumnMap
    modifiedColumns := keyModified expectedColumnMap actualColumnMap fun e a =>
      let columnDrift := compareColumn e a
      if 0 < columnDrift.changes.length then some columnDrift else none
    missingConstraints := keyMissing expectedConstraintMap actualConstraintMap
    extraConstraints := keyExtra expectedConstraintMap actualConstraintMap }

def compareView (expected actual : View) : ViewDrift :=
  let definitionChanged := decide (trim expected.definition ≠ trim actual.definition)
  { viewName := expected.schema ++ '.' :: expected.name
    definitionChanged := definitionChanged
    oldDefinition := if definitionChanged then some actual.definition else none
    newDefinition := if definitionChanged then some expected.definition else none }

def hasTableChanges (tableDrift : TableDrift) : Bool :=
  decide (0 < tableDrift.missingColumns.length)
  || decide (0 < tableDrift.extraColumns.length)
  || decide (0 < tableDrift.modifiedColumns.length)
  || decide (0 < tableDrift.missingConstraints.length)
  || decide (0 < tableDrift.extraConstraints.length)

def noDriftSummary : Str :=
  "No schema drift detected. Database schema matches migrations.".data

def generateSummary (hasChanges : Bool) (missingTables : List Str) (extraTables : List Str)
    (modifiedTables : List TableDrift) : Str :=
  if !hasChanges then noDriftSummary
  else
    let parts : List Str :=
      (if 0 < missingTables.length then
        [natToStr missingTables.length ++ (" table(s) missing from database".data)] else []) ++
      (if 0 < extraTables.length then
        [natToStr extraTables.length ++ (" extra table(s) in database".data)] else []) ++
      (if 0 < modifiedTables.length then
        [natToStr modifiedTables.length ++ (" table(s) have structural changes".data)] else [])
    ("Schema drift detected: ".data) ++ joinSep (", ".data) parts ++ (".".data)

def compareSchemas (expected actual : DatabaseSchema) : SchemaDrift :=
  let expectedTableMap := mkMap (expected.tables.map fun t => (t.schema ++ '.' :: t.name, t))
  let actualTableMap := mkMap (actual.tables.map fun t => (t.schema ++ '.' :: t.name, t))
  let missingTables := keyMissing expectedTableMap actualTableMap
  let extraTables := keyExtra expectedTableMap actualTableMap
  let modifiedTables := keyModified expectedTableMap actualTableMap fun e a =>
    let tableDrift := compareTable e a
    if hasTableChanges tableDrift then some tableDrift else none
  let expectedIndexMap :=
    mkMap (expected.indexes.map fun i => (i.schemaName ++ '.' :: i.tableName ++ '.' :: i.name, i))
  let actualIndexMap :=
    mkMap (actual.indexes.map fun i => (i.schemaName ++ '.' :: i.tableName ++ '.' :: i.name, i))
  let missingIndexes := keyMissing expectedIndexMap actualIndexMap
  let extraIndexes := keyExtra expectedIndexMap actualIndexMap
  let expectedViewMap := mkMap (expected.views.map fun v => (v.schema ++ '.' :: v.name, v))
  let actualViewMap := mkMap (actual.views.map fun v => (v.schema ++ '.' :: v.name, v))
  let missingViews := keyMissing expectedViewMap actualViewMap
  let extraViews := keyExtra expectedViewMap actualViewMap
  let modifiedViews := keyModified expectedViewMap actualViewMap fun e a =>
    let viewDrift := compareView e a
    if viewDrift.definitionChanged then some viewDrift else none
  let expectedTriggerMap :=
    mkMap (expected.triggers.map fun t => (t.schema ++ '.' :: t.tableName ++ '.' :: t.name, t))
  let actualTriggerMap :=
    mkMap (actual.triggers.map fun t => (t.schema ++ '.' :: t.tableName ++ '.' :: t.name, t))
  let missingTriggers := keyMissing expectedTriggerMap actualTriggerMap
  let extraTriggers := keyExtra expectedTriggerMap actualTriggerMap
  let expectedRLSMap :=
    mkMap (expected.rlsPolicies.map fun p =>
      (p.schema ++ '.' :: p.tableName ++ '.' :: p.policyName, p))
  let actualRLSMap :=
    mkMap (actual.rlsPolicies.map fun p =>
      (p.schema ++ '.' :: p.tableName ++ '.' :: p.policyName, p))
  let missingRLSPolicies := keyMissing expectedRLSMap actualRLSMap
  let extraRLSPolicies := keyExtra expectedRLSMap actualRLSMap
  let hasChanges :=
    decide (0 < missingTables.length) || decide (0 < extraTables.length)
    || decide (0 < modifiedTables.length)
    || decide (0 < missingIndexes.length) || decide (0 < extraIndexes.length)
    || decide (0 < missingViews.length) || decide (0 < extraViews.length)
    || decide (0 < modifiedViews.length)
    || decide (0 < missingTriggers.length) || decide (0 < extraTriggers.length)
    || decide (0 < missingRLSPolicies.length) || decide (0 < extraRLSPolicies.length)
  { hasChanges := hasChanges
    missingTables := missingTables, extraTables := extraTables
    modifiedTables := modifiedTables
    missingIndexes := missingIndexes, extraIndexes := extraIndexes
    missingViews := missingViews, extraViews := extraViews, modifiedViews := modifiedViews
    missingTriggers := missingTriggers, extraTriggers := extraTriggers
    missingRLSPolicies := missingRLSPolicies, extraRLSPolicies := extraRLSPolicies
    summary := generateSummary hasChanges missingTables extraTables modifiedTables }

/-! ### MigrationParser (`migration-parser.ts`)

Filesystem access is explicit: `FileSys` carries the `readdir` result (a
listing or a filesystem error) and the per-file content (read errors are not
modelled; every listed file is readable). -/

structure FsError where
  code : Str
deriving DecidableEq

structure FileSys where
  listing : Except FsError (List Str)
  content : Str → Str

def upMarker : Str := "-- migrate:up".data

def downMarker : Str := "-- migrate:down".data

inductive Sect
  | secNone
  | secUp
  | secDown
deriving DecidableEq

/-- One iteration of the line loop of `parseMigrationSections`. -/
def sectionStep (st : Sect × Str × Str) (line : Str) : Sect × Str × Str :=
  let trimmed := trim line
  if upMarker.isPrefixOf trimmed then (Sect.secUp, st.2.1, st.2.2)
  else if downMarker.isPrefixOf trimmed then (Sect.secDown, st.2.1, st.2.2)
  else
    match st.1 with
    | Sect.secUp => (st.1, st.2.1 ++ line ++ ['\n'], st.2.2)
    | Sect.secDown => (st.1, st.2.1, st.2.2 ++ line ++ ['\n'])
    | Sect.secNone => st

def parseMigrationSections (content : Str) : Str × Str :=
  let res := (splitChar '\n' content).foldl sectionStep (Sect.secNone, [], [])
  (trim res.2.1, trim res.2.2)

/-- `/^(\d+)/`: the leading digit run, `none` when the name starts with a
non-digit. -/
def extractVersion (filename : Str) : Option Str :=
  match filename with
  | c :: _ => if c.isDigit then some (filename.takeWhile Char.isDigit) else none
  | [] => none

/-- `/^\d+_(.+)\.sql$/` with `_` replaced by spaces in the capture.  `.`
does not match a newline, and `$` anchors the literal `.sql` at the end. -/
def extractName (filename : Str) : Option Str :=
  match filename with
  | c :: _ =>
    if c.isDigit then
      match filename.dropWhile Char.isDigit with
      | '_' :: tail =>
        if 4 < tail.length ∧ tail.drop (tail.length - 4) = (".sql".data)
            ∧ ¬ '\n' ∈ tail.take (tail.length - 4) then
          some ((tail.take (tail.length - 4)).map fun ch => if ch = '_' then ' ' else ch)
        else none
      | _ => none
    else none
  | [] => none

def invalidFilenameMsg : Str := "Invalid filename format: unable to extract version".data

def parseMigrationContent (filename content : Str) : ParsedMigration :=
  let version := extractVersion filename
  let name := extractName filename
  let sections := parseMigrationSections content
  let errors : List Str :=
    (if version = none then [invalidFilenameMsg] else []) ++
    (if trim sections.1 = [] then ["Missing or empty migrate:up section".data] else []) ++
    (if trim sections.2 = [] then ["Missing or empty migrate:down section".data] else [])
  { version := version.getD [], name := name.getD []
    upSql := sections.1, downSql := sections.2
    hasValidStructure := decide (errors.length = 0), errors := errors }

/-- Character-code lexicographic order, the model of
`a.parsed.version.localeCompare(b.parsed.version)` (exact for the digit-run
versions the loader produces). -/
def lexLe : Str → Str → Bool
  | [], _ => true
  | _ :: _, [] => false
  | a :: as, b :: bs =>
    if a.toNat < b.toNat then true
    else if b.toNat < a.toNat then false
    else lexLe as bs

def parseMigrationFilesModel (fs : FileSys) : Except FsError (List MigrationFile) :=
  match fs.listing with
  | Except.error e => if e.code = ("ENOENT".data) then Except.ok [] else Except.error e
  | Except.ok files =>
    let migrationFiles := files.filter fun file => (".sql".data).isSuffixOf file
    let parsedFiles : List MigrationFile := migrationFiles.map fun filename =>
      { filename := filename, content := fs.content filename
        parsed := parseMigrationContent filename (fs.content filename) }
    Except.ok
      (List.insertionSort (fun a b => lexLe a.parsed.version b.parsed.version = true) parsedFiles)

/-- The migration record pushed onto `migrationChain` for a structurally
valid file. -/
def mkChainMigration (f : MigrationFile) : Migration :=
  { version := f.parsed.version, name := f.parsed.name, filename := f.filename
    upSql := f.parsed.upSql, downSql := f.parsed.downSql }

def mkParseError (filename message : Str) : MigrationError :=
  { filename := filename, type := "PARSE_ERROR".data, message := message }

def dupVersionError (v : Str) : MigrationError :=
  { filename := []
    type := "DUPLICATE_VERSION".data
    message := ("Version ".data) ++ v ++ (" appears in multiple migration files".data) }

/-- `versionCounts[version] = (versionCounts[version] || 0) + 1`, keyed in
insertion order. -/
def bumpCount (m : List (Str × Nat)) (v : Str) : List (Str × Nat) :=
  if m.any (fun p => decide (p.1 = v)) then
    m.map fun p => if p.1 = v then (p.1, p.2 + 1) else p
  else m ++ [(v, 1)]

def getCount (m : List (Str × Nat)) (v : Str) : Nat :=
  ((m.find? fun p => decide (p.1 = v)).map (·.2)).getD 0

/-- The pure body of `analyzeMigrations` after the files are loaded.  The
single accumulating loop of the source updates each field independently, so
every field is written as its own traversal; errors are the per-file parse
errors (loop order) followed by the duplicate-version errors (post-loop). -/
def analyzeFiles (files : List MigrationFile) : MigrationAnalysis :=
  let versionCounts := files.foldl
    (fun m f => if f.parsed.version ≠ [] then bumpCount m f.parsed.version else m) []
  let duplicateVersions := (versionCounts.map (·.1)).filter fun v => 1 < getCount versionCounts v
  { totalFiles := files.length
    validMigrations := files.countP fun f => f.parsed.hasValidStructure
    invalidMigrations := files.countP fun f => !f.parsed.hasValidStructure
    missingDownMigrations := files.countP fun f => decide (trim f.parsed.downSql = [])
    duplicateVersions := duplicateVersions
    migrationChain := files.filterMap fun f =>
      if f.parsed.hasValidStructure then some (mkChainMigration f) else none
    errors :=
      (files.map fun f =>
        if f.parsed.hasValidStructure then [] else f.parsed.errors.map (mkParseError f.filename)).flatten
      ++ duplicateVersions.map dupVersionError }

def analyzeMigrationsModel (fs : FileSys) : Except FsError MigrationAnalysis :=
  (parseMigrationFilesModel fs).map analyzeFiles

/-- `appliedMigrations.sort((a, b) => b.appliedAt.getTime() - a.appliedAt.getTime())`:
stable descending sort by timestamp. -/
def sortAppliedDesc (l : List AppliedMigration) : List AppliedMigration :=
  List.insertionSort (fun a b => b.appliedAt ≤ a.appliedAt) l

/-- `getMigrationHistory`, with the in-place mutation of the
`appliedMigrations` argument made explicit: the second component is the
state of the caller's array after the call (the source sorts it in place
when it is nonempty).  The second file loop runs after that sort, so its
`find` scans the sorted array. -/
def getMigrationHistoryModel (fs : FileSys) (appliedMigrations : List AppliedMigration) :
    Except FsError (MigrationHistory × List AppliedMigration) :=
  (parseMigrationFilesModel fs).map fun files =>
    let appliedVersions := appliedMigrations.map (·.version)
    let pendingMigrations := files.filterMap fun f =>
      if f.parsed.hasValidStructure = true ∧ ¬ f.parsed.version ∈ appliedVersions then
        some (mkChainMigration f)
      else none
    let appliedFinal :=
      if 0 < appliedMigrations.length then sortAppliedDesc appliedMigrations
      else appliedMigrations
    let lastAppliedVersion :=
      if 0 < appliedMigrations.length then appliedFinal.head?.map (·.version) else none
    let migrationChain := files.filterMap fun f =>
      if f.parsed.hasValidStructure then
        some { mkChainMigration f with
               appliedAt :=
                 (appliedFinal.find? fun m => decide (m.version = f.parsed.version)).map
                   (·.appliedAt) }
      else none
    ({ appliedMigrations := appliedFinal
       pendingMigrations := pendingMigrations
       totalMigrations := files.length
       lastAppliedVersion := lastAppliedVersion
       migrationChain := migrationChain }, appliedFinal)

/-- The two-marker template emitted by `formatMigrationContent`. -/
def formatMigrationContent (upSql downSql : Str) : Str :=
  upMarker ++ '\n' :: upSql ++ '\n' :: '\n' :: downMarker ++ '\n' :: downSql ++ ['\n']

/-! ### Concrete instances used by the theorems below -/

/-- Migration `A`: `CREATE TABLE foo`. -/
def migCreateFoo : Migration :=
  { version := "20240101000000".data, name := "create foo".data
    filename := "20240101000000_create_foo.sql".data
    upSql := "CREATE TABLE foo".data, downSql := "DROP TABLE foo".data }

/-- Migration `B`: `ALTER TABLE foo ADD COLUMN bar`. -/
def migAddBar : Migration :=
  { version := "20240102000000".data, name := "add bar".data
    filename := "20240102000000_add_bar.sql".data
    upSql := "ALTER TABLE foo ADD COLUMN bar".data, downSql := [] }

def createViewStmt : Str := "CREATE VIEW active_users AS SELECT 1".data

/-- A migration whose up SQL is a single `CREATE VIEW` statement. -/
def migCreateView : Migration :=
  { version := "20240103000000".data, name := "create view".data
    filename := "20240103000000_create_view.sql".data
    upSql := createViewStmt, downSql := "DROP VIEW active_users".data }

/-- Index `idx` on `public.a`. -/
def idxOnA : Index :=
  { name := "idx".data, tableName := "a".data, schemaName := publicSchema, columns := []
    isUnique := false, isPrimary := false, method := "btree".data, isConcurrent := false }

/-- Index `idx` (same name) on the different parent table `public.b`. -/
def idxOnB : Index := { idxOnA with tableName := "b".data }

/-- A model holding two same-named indexes on different parent tables. -/
def twoIdxSchema : DatabaseSchema := { emptySchema with indexes := [idxOnA, idxOnB] }

/-- An expected model that differs from the empty actual model only in the
index family. -/
def idxOnlySchema : DatabaseSchema := { emptySchema with indexes := [idxOnA] }

def dupContentA : Str :=
  "-- migrate:up\nCREATE TABLE a (id int);\n-- migrate:down\nDROP TABLE a;\n".data

def dupContentB : Str :=
  "-- migrate:up\nCREATE TABLE b (id int);\n-- migrate:down\nDROP TABLE b;\n".data

/-- Two migration files sharing the version `20240101000000`. -/
def fsDup : FileSys :=
  { listing := Except.ok ["20240101000000_a.sql".data, "20240101000000_b.sql".data]
    content := fun fn => if fn = ("20240101000000_a.sql".data) then dupContentA else dupContentB }

def dupFileA : MigrationFile :=
  { filename := "20240101000000_a.sql".data, content := dupContentA
    parsed := { version := "20240101000000".data, name := "a".data
                upSql := "CREATE TABLE a (id int);".data, downSql := "DROP TABLE a;".data
                hasValidStructure := true, errors := [] } }

def dupFileB : MigrationFile :=
  { filename := "20240101000000_b.sql".data, content := dupContentB
    parsed := { version := "20240101000000".data, name := "b".data
                upSql := "CREATE TABLE b (id int);".data, downSql := "DROP TABLE b;".data
                hasValidStructure := true, errors := [] } }

/-- A directory containing a `.sql` file that does not match
`^\d{14}_.+\.sql$`. -/
def fsBad : FileSys :=
  { listing := Except.ok ["foo.sql".data]
    content := fun _ => "-- migrate:up\nSELECT 1;\n-- migrate:down\nSELECT 2;\n".data }

/-- The record the loader produces for `foo.sql`. -/
def fileBad : MigrationFile :=
  { filename := "foo.sql".data
    content := "-- migrate:up\nSELECT 1;\n-- migrate:down\nSELECT 2;\n".data
    parsed := { version := [], name := []
                upSql := "SELECT 1;".data, downSql := "SELECT 2;".data
                hasValidStructure := false, errors := [invalidFilenameMsg] } }

def enoentErr : FsError := { code := "ENOENT".data }

def eaccesErr : FsError := { code := "EACCES".data }

/-- A filesystem whose migrations directory does not exist. -/
def fsNoDir : FileSys := { listing := Except.error enoentErr, content := fun _ => [] }

/-- A filesystem whose directory is unreadable for another reason. -/
def fsDenied : FileSys := { listing := Except.error eaccesErr, content := fun _ => [] }

/-- An existing but empty migrations directory. -/
def fsEmptyDir : FileSys := { listing := Except.ok [], content := fun _ => [] }

/-- Applied earlier (timestamp 100). -/
def appEarly : AppliedMigration := { version := "20240101000000".data, appliedAt := 100 }

/-- Applied later (timestamp 200). -/
def appLate : AppliedMigration := { version := "20240102000000".data, appliedAt := 200 }

/-- The history record returned for `fsEmptyDir` and `[appEarly, appLate]`. -/
def histSortedW : MigrationHistory :=
  { appliedMigrations := [appLate, appEarly], pendingMigrations := []
    totalMigrations := 0, lastAppliedVersion := some ("20240102000000".data)
    migrationChain := [] }

/-- Round-trip counterexample input: the up SQL is itself a marker line. -/
def ceUp : Str := "-- migrate:down".data

def ceDown : Str := "X".data

def goodUp : Str := "CREATE TABLE t (id int);".data

def goodDown : Str := "DROP TABLE t;".data

/-! ### Auxiliary predicates and instances for the proofs -/

/-- Keys of an association list are pairwise distinct. -/
def nodupKeys {α : Type} (m : List (Str × α)) : Prop := (m.map Prod.fst).Nodup

instance : IsTotal AppliedMigration fun a b => b.appliedAt ≤ a.appliedAt :=
  ⟨fun a b => le_total b.appliedAt a.appliedAt⟩

instance : IsTrans AppliedMigration fun a b => b.appliedAt ≤ a.appliedAt :=
  ⟨fun _ _ _ hab hbc => le_trans hbc hab⟩

/-! ### Lemmas about the `Map` model -/

theorem keys_map_overwrite {α : Type} (m : List (Str × α)) (k : Str) (v : α) :
    (m.map fun p => if p.1 = k then (k, v) else p).map Prod.fst = m.map Prod.fst := by
  induction m with
  | nil => rfl
  | cons q rest ih =>
    simp only [List.map_cons, ih]
    by_cases hq : q.1 = k
    · simp [if_pos hq, hq]
    · simp [if_neg hq]

theorem nodupKeys_mapInsert {α : Type} (m : List (Str × α)) (k : Str) (v : α)
    (h : nodupKeys m) : nodupKeys (mapInsert m k v) := by
  unfold nodupKeys mapInsert at *
  by_cases ha : m.any (fun p => decide (p.1 = k)) = true
  · rw [if_pos ha, keys_map_overwrite]; exact h
  · rw [if_neg ha, List.map_append]
    have hk : k ∉ m.map Prod.fst := by
      intro hmem
      obtain ⟨p, hp, hpk⟩ := List.mem_map.mp hmem
      exact ha (List.any_eq_true.mpr ⟨p, hp, by simp [hpk]⟩)
    simp [List.nodup_append, h, hk]

theorem nodupKeys_foldl {α : Type} (l : List (Str × α)) (m : List (Str × α))
    (h : nodupKeys m) : nodupKeys (l.foldl (fun acc p => mapInsert acc p.1 p.2) m) := by
  induction l generalizing m with
  | nil => exact h
  | cons p rest ih => exact ih _ (nodupKeys_mapInsert _ _ _ h)

theorem nodupKeys_mkMap {α : Type} (l : List (Str × α)) : nodupKeys (mkMap l) :=
  nodupKeys_foldl l [] (by simp [nodupKeys])

theorem find?_self_of_nodup {α : Type} (m : List (Str × α)) (h : nodupKeys m)
    (p : Str × α) (hp : p ∈ m) : m.find? (fun q => decide (q.1 = p.1)) = some p := by
  induction m with
  | nil => cases hp
  | cons q rest ih =>
    unfold nodupKeys at h
    rw [List.map_cons, List.nodup_cons] at h
    obtain ⟨hq1, h2⟩ := h
    by_cases hqp : q.1 = p.1
    · have hpq : p = q := by
        rcases List.mem_cons.mp hp with hh | hh
        · exact hh
        · have hpmem : p.1 ∈ List.map Prod.fst rest := List.mem_map.mpr ⟨p, hh, rfl⟩
          rw [← hqp] at hpmem
          exact absurd hpmem hq1
      rw [List.find?_cons_of_pos _ (by simp [hqp]), hpq]
    · have hp' : p ∈ rest := by
        rcases List.mem_cons.mp hp with hh | hh
        · exact absurd (congrArg Prod.fst hh).symm hqp
        · exact hh
      rw [List.find?_cons_of_neg _ (by simp [hqp])]
      exact ih h2 hp'

theorem getVal_self {α : Type} (m : List (Str × α)) (h : nodupKeys m)
    (p : Str × α) (hp : p ∈ m) : getVal m p.1 = some p.2 := by
  unfold getVal
  rw [find?_self_of_nodup m h p hp]
  rfl

theorem hasKey_of_mem {α : Type} (m : List (Str × α)) (p : Str × α) (hp : p ∈ m) :
    hasKey m p.1 = true :=
  List.any_eq_true.mpr ⟨p, hp, by simp⟩

theorem hasKey_of_mem_keys {α : Type} (m : List (Str × α)) (k : Str)
    (hk : k ∈ m.map Prod.fst) : hasKey m k = true := by
  obtain ⟨p, hp, rfl⟩ := List.mem_map.mp hk
  exact hasKey_of_mem m p hp

theorem keyMissing_self {α : Type} (m : List (Str × α)) : keyMissing m m = [] := by
  unfold keyMissing
  have h : m.filter (fun p => !hasKey m p.1) = [] :=
    List.filter_eq_nil_iff.mpr fun p hp => by simp [hasKey_of_mem m p hp]
  rw [h]; rfl

theorem keyExtra_self {α : Type} (m : List (Str × α)) : keyExtra m m = [] := by
  unfold keyExtra
  exact List.filter_eq_nil_iff.mpr fun k hk => by simp [hasKey_of_mem_keys m k hk]

theorem keyModified_self {α β : Type} (m : List (Str × α)) (h : nodupKeys m)
    (f : α → α → Option β) (hf : ∀ a, f a a = none) : keyModified m m f = [] := by
  unfold keyModified
  exact List.filterMap_eq_nil_iff.mpr fun p hp => by rw [getVal_self m h p hp]; exact hf p.2

/-! ### Reflexivity of the comparison helpers -/

theorem compareColumn_self (c : Column) : (compareColumn c c).changes = [] := by
  simp [compareColumn]

theorem compareTable_self (t : Table) : hasTableChanges (compareTable t t) = false := by
  have h1 : (compareTable t t).missingColumns = [] := keyMissing_self _
  have h2 : (compareTable t t).extraColumns = [] := keyExtra_self _
  have h3 : (compareTable t t).modifiedColumns = [] := by
    show keyModified (mkMap (t.columns.map fun c => (c.name, c)))
        (mkMap (t.columns.map fun c => (c.name, c)))
        (fun e a =>
          let columnDrift := compareColumn e a
          if 0 < columnDrift.changes.length then some columnDrift else none) = []
    refine keyModified_self _ (nodupKeys_mkMap _) _ fun a => ?_
    show (if 0 < (compareColumn a a).changes.length then some (compareColumn a a) else none)
      = none
    rw [compareColumn_self]
    rfl
  have h4 : (compareTable t t).missingConstraints = [] := keyMissing_self _
  have h5 : (compareTable t t).extraConstraints = [] := keyExtra_self _
  unfold hasTableChanges
  rw [h1, h2, h3, h4, h5]
  rfl

theorem compareView_self (v : View) : (compareView v v).definitionChanged = false := by
  show decide (trim v.definition ≠ trim v.definition) = false
  simp

/-- C3: for every model `m`, `compareSchemas m m` reports no drift: every
missing/extra/modified list is empty, `hasChanges` is `false`, and the
summary is exactly
`"No schema drift detected. Database schema matches migrations."`. -/
theorem compareSchemas_self_no_drift (m : DatabaseSchema) :
    (compareSchemas m m).hasChanges = false ∧
    (compareSchemas m m).summary
      = ("No schema drift detected. Database schema matches migrations.".data) ∧
    (compareSchemas m m).missingTables = [] ∧
    (compareSchemas m m).extraTables = [] ∧
    (compareSchemas m m).modifiedTables = [] ∧
    (compareSchemas m m).missingIndexes = [] ∧
    (compareSchemas m m).extraIndexes = [] ∧
    (compareSchemas m m).missingViews = [] ∧
    (compareSchemas m m).extraViews = [] ∧
    (compareSchemas m m).modifiedViews = [] ∧
    (compareSchemas m m).missingTriggers = [] ∧
    (compareSchemas m m).extraTriggers = [] ∧
    (compareSchemas m m).missingRLSPolicies = [] ∧
    (compareSchemas m m).extraRLSPolicies = [] := by
  have hmt : (compareSchemas m m).missingTables = [] := keyMissing_self _
  have het : (compareSchemas m m).extraTables = [] := keyExtra_self _
  have hot : (compareSchemas m m).modifiedTables = [] := by
    show keyModified (mkMap (m.tables.map fun t => (t.schema ++ '.' :: t.name, t)))
        (mkMap (m.tables.map fun t => (t.schema ++ '.' :: t.name, t)))
        (fun e a =>
          let tableDrift := compareTable e a
          if hasTableChanges tableDrift then some tableDrift else none) = []
    refine keyModified_self _ (nodupKeys_mkMap _) _ fun t => ?_
    show (if hasTableChanges (compareTable t t) then some (compareTable t t) else none) = none
    rw [compareTable_self]
    rfl
  have hmi : (compareSchemas m m).missingIndexes = [] := keyMissing_self _
  have hei : (compareSchemas m m).extraIndexes = [] := keyExtra_self _
  have hmv : (compareSchemas m m).missingViews = [] := keyMissing_self _
  have hev : (compareSchemas m m).extraViews = [] := keyExtra_self _
  have hov : (compareSchemas m m).modifiedViews = [] := by
    show keyModified (mkMap (m.views.map fun v => (v.schema ++ '.' :: v.name, v)))
        (mkMap (m.views.map fun v => (v.schema ++ '.' :: v.name, v)))
        (fun e a =>
          let viewDrift := compareView e a
          if viewDrift.definitionChanged then some viewDrift else none) = []
    refine keyModified_self _ (nodupKeys_mkMap _) _ fun v => ?_
    show (if (compareView v v).definitionChanged then some (compareView v v) else none) = none
    rw [compareView_self]
    rfl
  have hmg : (compareSchemas m m).missingTriggers = [] := keyMissing_self _
  have heg : (compareSchemas m m).extraTriggers = [] := keyExtra_self _
  have hmp : (compareSchemas m m).missingRLSPolicies = [] := keyMissing_self _
  have hep : (compareSchemas m m).extraRLSPolicies = [] := keyExtra_self _
  have hch : (compareSchemas m m).hasChanges = false := by
    show (decide (0 < (compareSchemas m m).missingTables.length)
        || decide (0 < (compareSchemas m m).extraTables.length)
        || decide (0 < (compareSchemas m m).modifiedTables.length)
        || decide (0 < (compareSchemas m m).missingIndexes.length)
        || decide (0 < (compareSchemas m m).extraIndexes.length)
        || decide (0 < (compareSchemas m m).missingViews.length)
        || decide (0 < (compareSchemas m m).extraViews.length)
        || decide (0 < (compareSchemas m m).modifiedViews.length)
        || decide (0 < (compareSchemas m m).missingTriggers.length)
        || decide (0 < (compareSchemas m m).extraTriggers.length)
        || decide (0 < (compareSchemas m m).missingRLSPolicies.length)
        || decide (0 < (compareSchemas m m).extraRLSPolicies.length)) = false
    rw [hmt, het, hot, hmi, hei, hmv, hev, hov, hmg, heg, hmp, hep]
    rfl
  have hsum : (compareSchemas m m).summary
      = ("No schema drift detected. Database schema matches migrations.".data) := by
    show generateSummary (compareSchemas m m).hasChanges (compareSchemas m m).missingTables
        (compareSchemas m m).extraTables (compareSchemas m m).modifiedTables
      = ("No schema drift detected. Database schema matches migrations.".data)
    rw [hch]
    rfl
  exact ⟨hch, hsum, hmt, het, hot, hmi, hei, hmv, hev, hov, hmg, heg, hmp, hep⟩

/-- C10: when the three table-family lists are empty but the diff still has
changes (index/view/trigger/policy drift only), the summary degenerates to
the exact string `"Schema drift detected: ."` because `generateSummary`
enumerates counts only for the table family. -/
theorem summary_ignores_non_table_families (expected actual : DatabaseSchema)
    (h1 : (compareSchemas expected actual).missingTables = [])
    (h2 : (compareSchemas expected actual).extraTables = [])
    (h3 : (compareSchemas expected actual).modifiedTables = [])
    (h4 : (compareSchemas expected actual).hasChanges = true) :
    (compareSchemas expected actual).summary = ("Schema drift detected: .".data) := by
  have hsum : (compareSchemas expected actual).summary
      = generateSummary (compareSchemas expected actual).hasChanges
          (compareSchemas expected actual).missingTables
          (compareSchemas expected actual).extraTables
          (compareSchemas expected actual).modifiedTables := rfl
  rw [hsum, h1, h2, h3, h4]
  rfl

/-- Witness for C10 at a drift that lives only in the index family. -/
theorem summary_ignores_non_table_families_witness :
    (compareSchemas idxOnlySchema emptySchema).missingTables = [] ∧
    (compareSchemas idxOnlySchema emptySchema).extraTables = [] ∧
    (compareSchemas idxOnlySchema emptySchema).modifiedTables = [] ∧
    (compareSchemas idxOnlySchema emptySchema).hasChanges = true ∧
    (compareSchemas idxOnlySchema emptySchema).missingIndexes = [("public.a.idx".data)] ∧
    (compareSchemas idxOnlySchema emptySchema).summary = ("Schema drift detected: .".data) :=
  ⟨by decide, by decide, by decide, by decide, by decide,
    summary_ignores_non_table_families idxOnlySchema emptySchema
      (by decide) (by decide) (by decide) (by decide)⟩

/-- C1: replay is order-sensitive.  Folding `[CREATE TABLE foo,
ALTER TABLE foo ADD COLUMN bar]` from the empty model yields `public.foo`
with a column `bar`; folding the reversed list yields `public.foo` with no
columns, because `AddColumn` against a table absent from the model is a
no-op that leaves the model unchanged. -/
theorem replay_order_sensitive :
    (buildExpectedSchemaFromMigrations [migCreateFoo, migAddBar]).tables
      = [{ schema := publicSchema, name := "foo".data
           columns := [{ name := "bar".data, dataType := "text".data, isNullable := true
                         isGenerated := false, ordinalPosition := 1 }]
           constraints := [], indexes := [] }] ∧
    (buildExpectedSchemaFromMigrations [migAddBar, migCreateFoo]).tables
      = [{ schema := publicSchema, name := "foo".data
           columns := [], constraints := [], indexes := [] }] ∧
    applyAddColumn emptySchema ("ALTER TABLE foo ADD COLUMN bar".data) = emptySchema := by
  refine ⟨by decide, by decide, by decide⟩

/-- C2 (code bug): the classifier of `parseMigrationOperations` only emits
table/column/index operations, so view, trigger and policy statements are
never tagged and replay never mutates those families — even though the
`applyCreateView`/… handlers and the corresponding `switch` branches exist
in the source.  A `CREATE VIEW` migration therefore replays to the empty
model, while the (unreachable) `applyCreateView` itself would have inserted
the view at key `public.active_users`. -/
theorem classifier_drops_view_trigger_policy :
    parseMigrationOperations createViewStmt = [] ∧
    parseMigrationOperations ("CREATE OR REPLACE VIEW v AS SELECT 1".data) = [] ∧
    parseMigrationOperations ("DROP VIEW v".data) = [] ∧
    parseMigrationOperations ("CREATE TRIGGER trg BEFORE INSERT ON t EXECUTE FUNCTION f()".data)
      = [] ∧
    parseMigrationOperations ("DROP TRIGGER trg".data) = [] ∧
    parseMigrationOperations ("CREATE POLICY pol ON t USING (true)".data) = [] ∧
    parseMigrationOperations ("DROP POLICY pol ON t".data) = [] ∧
    buildExpectedSchemaFromMigrations [migCreateView] = emptySchema ∧
    ((applyCreateView emptySchema createViewStmt).views.map fun v => (v.schema, v.name))
      = [(publicSchema, "active_users".data)] := by
  refine ⟨by decide, by decide, by decide, by decide, by decide, by decide, by decide,
    by decide, by decide⟩

/-- C6 counterexample: `DROP INDEX idx` names only the index; replay removes
BOTH records named `idx`, including the one on the different parent table
`public.b`, contradicting the claim that records with the same name but a
different schema or parent table are left unchanged. -/
theorem dropIndex_composite_key_counterexample :
    twoIdxSchema.indexes = [idxOnA, idxOnB] ∧
    idxOnA.name = idxOnB.name ∧
    ¬ idxOnA.tableName = idxOnB.tableName ∧
    dropIndexMatch ("DROP INDEX idx".data) = some ("idx".data) ∧
    (applyDropIndex twoIdxSchema ("DROP INDEX idx".data)).indexes = [] := by
  refine ⟨by decide, by decide, by decide, by decide, by decide⟩

/-- C6 (amended): `CreateIndex` appends one record whose key fields come
from the statement (schema defaulting to `public`), but `DropIndex` filters
by index name alone: a record survives replaying `DROP INDEX` iff it was
present and its name differs from the statement's index name, regardless of
its schema or parent table. -/
theorem indexReplay_drop_by_name_only :
    (∀ (m : DatabaseSchema) (sql indexName : Str),
      dropIndexMatch sql = some indexName →
      ∀ i : Index, i ∈ (applyDropIndex m sql).indexes
        ↔ i ∈ m.indexes ∧ ¬ i.name = indexName) ∧
    (∀ (m : DatabaseSchema) (sql : Str) (r : Str × Option Str × Str),
      createIndexMatch sql = some r →
      ((applyCreateIndex m sql).indexes.map fun i => (i.schemaName, i.tableName, i.name))
        = (m.indexes.map fun i => (i.schemaName, i.tableName, i.name))
          ++ [(r.2.1.getD publicSchema, r.2.2, r.1)]) := by
  constructor
  · intro m sql indexName h i
    unfold applyDropIndex
    rw [h]
    simp [List.mem_filter]
  · intro m sql r h
    obtain ⟨nm, sg, tb⟩ := r
    unfold applyCreateIndex
    rw [h]
    simp

/-- Witness for the amended C6 at concrete statements. -/
theorem indexReplay_drop_by_name_only_witness :
    dropIndexMatch ("DROP INDEX idx".data) = some ("idx".data) ∧
    (∀ i : Index, i ∈ (applyDropIndex twoIdxSchema ("DROP INDEX idx".data)).indexes
      ↔ i ∈ twoIdxSchema.indexes ∧ ¬ i.name = ("idx".data)) ∧
    createIndexMatch ("CREATE UNIQUE INDEX idx2 ON s.t (c)".data)
      = some (("idx2".data), some ("s".data), ("t".data)) ∧
    ((applyCreateIndex emptySchema ("CREATE UNIQUE INDEX idx2 ON s.t (c)".data)).indexes.map
        fun i => (i.schemaName, i.tableName, i.name))
      = (emptySchema.indexes.map fun i => (i.schemaName, i.tableName, i.name))
        ++ [((some ("s".data)).getD publicSchema, ("t".data), ("idx2".data))] :=
  ⟨by decide,
    indexReplay_drop_by_name_only.1 twoIdxSchema ("DROP INDEX idx".data) ("idx".data) (by decide),
    by decide,
    indexReplay_drop_by_name_only.2 emptySchema ("CREATE UNIQUE INDEX idx2 ON s.t (c)".data)
      (("idx2".data), some ("s".data), ("t".data)) (by decide)⟩

/-- C8: when `readdir` fails with `ENOENT` (nonexistent directory) the
loader returns an empty list instead of an error; any other filesystem
failure propagates unchanged to the caller. -/
theorem missing_dir_empty_other_errors_propagate (fs : FileSys) (e : FsError)
    (h : fs.listing = Except.error e) :
    (e.code = ("ENOENT".data) → parseMigrationFilesModel fs = Except.ok []) ∧
    (¬ e.code = ("ENOENT".data) → parseMigrationFilesModel fs = Except.error e) := by
  unfold parseMigrationFilesModel
  rw [h]
  constructor
  · intro hc
    simp [hc]
  · intro hc
    simp [hc]

/-- Witness for C8: `ENOENT` yields `[]`, `EACCES` propagates. -/
theorem missing_dir_empty_other_errors_propagate_witness :
    fsNoDir.listing = Except.error enoentErr ∧
    enoentErr.code = ("ENOENT".data) ∧
    parseMigrationFilesModel fsNoDir = Except.ok [] ∧
    fsDenied.listing = Except.error eaccesErr ∧
    ¬ eaccesErr.code = ("ENOENT".data) ∧
    parseMigrationFilesModel fsDenied = Except.error eaccesErr :=
  ⟨rfl, by decide,
    (missing_dir_empty_other_errors_propagate fsNoDir enoentErr rfl).1 (by decide),
    rfl, by decide,
    (missing_dir_empty_other_errors_propagate fsDenied eaccesErr rfl).2 (by decide)⟩

/-- C9: `getMigrationHistory` sorts its `appliedMigrations` argument in
place.  In the model the final state of the caller's array is returned
explicitly: whenever the applied list is nonempty it equals the stable
descending sort by `appliedAt` (a permutation of the input, sorted
descending, and aliased by the returned history), and on the concrete input
`[appEarly, appLate]` the array comes back reordered, not unchanged. -/
theorem getMigrationHistory_sorts_applied_in_place :
    (∀ (fs : FileSys) (applied : List AppliedMigration) (hist : MigrationHistory)
        (arr : List AppliedMigration),
      getMigrationHistoryModel fs applied = Except.ok (hist, arr) → ¬ applied = [] →
        arr = sortAppliedDesc applied ∧ arr.Perm applied ∧
        List.Sorted (fun a b => b.appliedAt ≤ a.appliedAt) arr ∧
        hist.appliedMigrations = arr) ∧
    getMigrationHistoryModel fsEmptyDir [appEarly, appLate]
      = Except.ok (histSortedW, [appLate, appEarly]) ∧
    ¬ ([appLate, appEarly] : List AppliedMigration) = [appEarly, appLate] := by
  refine ⟨?_, rfl, by decide⟩
  intro fs applied hist arr h hne
  cases hp : parseMigrationFilesModel fs with
  | error e =>
    unfold getMigrationHistoryModel at h
    rw [hp] at h
    simp [Except.map] at h
  | ok files =>
    unfold getMigrationHistoryModel at h
    rw [hp] at h
    simp only [Except.map] at h
    rw [Except.ok.injEq, Prod.mk.injEq] at h
    have hlen : 0 < applied.length := List.length_pos.mpr hne
    have harr : arr = sortAppliedDesc applied := by
      rw [← h.2]
      rw [if_pos hlen]
    have hhist : hist.appliedMigrations = arr := by
      rw [← h.1]
      show (if 0 < applied.length then sortAppliedDesc applied else applied) = arr
      rw [if_pos hlen]
      exact harr.symm
    exact ⟨harr, harr ▸ List.perm_insertionSort _ _, harr ▸ List.sorted_insertionSort _ _, hhist⟩

/-- Witness for C9 at the concrete applied list `[appEarly, appLate]`. -/
theorem getMigrationHistory_sorts_applied_in_place_witness :
    getMigrationHistoryModel fsEmptyDir [appEarly, appLate]
        = Except.ok (histSortedW, [appLate, appEarly]) ∧
    ¬ ([appEarly, appLate] : List AppliedMigration) = [] ∧
    ([appLate, appEarly] = sortAppliedDesc [appEarly, appLate] ∧
      ([appLate, appEarly] : List AppliedMigration).Perm [appEarly, appLate] ∧
      List.Sorted (fun a b => b.appliedAt ≤ a.appliedAt)
        ([appLate, appEarly] : List AppliedMigration) ∧
      histSortedW.appliedMigrations = [appLate, appEarly]) :=
  ⟨rfl, by decide,
    getMigrationHistory_sorts_applied_in_place.1 fsEmptyDir [appEarly, appLate] histSortedW
      [appLate, appEarly] rfl (by decide)⟩

/-! ### Lemmas about the version-count object of `analyzeMigrations` -/

theorem find?_map_overwrite (w v : Str) (hvw : ¬ v = w) (l : List (Str × Nat)) :
    (l.map fun p => if p.1 = w then (p.1, p.2 + 1) else p).find? (fun p => decide (p.1 = v))
      = l.find? (fun p => decide (p.1 = v)) := by
  induction l with
  | nil => rfl
  | cons q rest ih =>
    rw [List.map_cons]
    by_cases hq : q.1 = w
    · have hqv : ¬ q.1 = v := fun hh => hvw ((hh.symm.trans hq))
      rw [List.find?_cons_of_neg _ (by simp only [if_pos hq]; simp [hqv]),
        List.find?_cons_of_neg _ (by simp [hqv])]
      exact ih
    · by_cases hv : q.1 = v
      · rw [List.find?_cons_of_pos _ (by simp only [if_neg hq]; simp [hv]),
          List.find?_cons_of_pos _ (by simp [hv])]
        simp [if_neg hq]
      · rw [List.find?_cons_of_neg _ (by simp only [if_neg hq]; simp [hv]),
          List.find?_cons_of_neg _ (by simp [hv])]
        exact ih

theorem getCount_map_overwrite_self (l : List (Str × Nat)) (w : Str)
    (hmem : l.any (fun p => decide (p.1 = w)) = true) :
    getCount (l.map fun p => if p.1 = w then (p.1, p.2 + 1) else p) w = getCount l w + 1 := by
  induction l with
  | nil => simp at hmem
  | cons q rest ih =>
    rw [List.map_cons]
    by_cases hq : q.1 = w
    · unfold getCount
      rw [List.find?_cons_of_pos _ (by simp [hq]), List.find?_cons_of_pos _ (by simp [hq])]
      simp [hq]
    · have hmem' : rest.any (fun p => decide (p.1 = w)) = true := by
        rcases List.any_eq_true.mp hmem with ⟨p, hp, hpw⟩
        rcases List.mem_cons.mp hp with hh | hh
        · exfalso
          apply hq
          have hpw' : p.1 = w := of_decide_eq_true hpw
          rw [hh] at hpw'
          exact hpw'
        · exact List.any_eq_true.mpr ⟨p, hh, hpw⟩
      unfold getCount
      rw [List.find?_cons_of_neg _ (by simp [hq]), List.find?_cons_of_neg _ (by simp [hq])]
      exact ih hmem'

theorem getCount_bumpCount (m : List (Str × Nat)) (w v : Str) :
    getCount (bumpCount m w) v = getCount m v + (if w = v then 1 else 0) := by
  unfold bumpCount
  by_cases hw : m.any (fun p => decide (p.1 = w)) = true
  · rw [if_pos hw]
    by_cases hv : v = w
    · subst hv
      rw [if_pos rfl]
      exact getCount_map_overwrite_self m v hw
    · rw [if_neg fun hh => hv hh.symm]
      unfold getCount
      rw [find?_map_overwrite w v hv m]
      simp
  · rw [if_neg hw]
    unfold getCount
    rw [List.find?_append]
    cases hf : m.find? fun p => decide (p.1 = v) with
    | some q =>
      have hq1 : q.1 = v := by simpa using List.find?_some hf
      have hwv : ¬ w = v := by
        intro hh
        apply hw
        exact List.any_eq_true.mpr ⟨q, List.mem_of_find?_eq_some hf, by simp [hq1, hh]⟩
      simp [hwv]
    | none =>
      by_cases hwv : w = v
      · simp [hwv, List.find?]
      · simp [hwv, List.find?]

theorem getCount_fold (files : List MigrationFile) (m0 : List (Str × Nat)) (v : Str)
    (hv : ¬ v = []) :
    getCount (files.foldl
        (fun m f => if f.parsed.version ≠ [] then bumpCount m f.parsed.version else m) m0) v
      = getCount m0 v + files.countP fun f => decide (f.parsed.version = v) := by
  induction files generalizing m0 with
  | nil => simp
  | cons f rest ih =>
    rw [List.foldl_cons, List.countP_cons, ih]
    by_cases hV : f.parsed.version = []
    · have hfv : ¬ f.parsed.version = v := fun hh => hv (hh.symm.trans hV)
      simp [hV, hfv, hv]
    · rw [if_pos hV, getCount_bumpCount]
      by_cases hvv : f.parsed.version = v
      · simp [hvv]
        omega
      · simp [hvv]

theorem getCount_pos_key_mem (m : List (Str × Nat)) (v : Str) (h : 0 < getCount m v) :
    v ∈ m.map Prod.fst := by
  unfold getCount at h
  cases hf : m.find? fun p => decide (p.1 = v) with
  | none => rw [hf] at h; simp at h
  | some q =>
    have hq1 : q.1 = v := by simpa using List.find?_some hf
    exact hq1 ▸ List.mem_map.mpr ⟨q, List.mem_of_find?_eq_some hf, rfl⟩

/-- C5: whenever at least two loaded files share a (nonempty) version `v`,
the analysis lists `v` in `duplicateVersions`, carries a
`DUPLICATE_VERSION` error for it, keeps `totalFiles` at the full loaded
count, and every structurally valid file still contributes its entry to the
migration chain — no colliding file is excluded. -/
theorem analyzeMigrations_duplicate_version (fs : FileSys) (files : List MigrationFile)
    (hload : parseMigrationFilesModel fs = Except.ok files) (v : Str) (hv : ¬ v = [])
    (hdup : 2 ≤ files.countP fun f => decide (f.parsed.version = v)) :
    analyzeMigrationsModel fs = Except.ok (analyzeFiles files) ∧
    v ∈ (analyzeFiles files).duplicateVersions ∧
    dupVersionError v ∈ (analyzeFiles files).errors ∧
    (analyzeFiles files).totalFiles = files.length ∧
    ∀ f ∈ files, f.parsed.hasValidStructure = true →
      mkChainMigration f ∈ (analyzeFiles files).migrationChain := by
  have hmodel : analyzeMigrationsModel fs = Except.ok (analyzeFiles files) := by
    unfold analyzeMigrationsModel
    rw [hload]
    rfl
  have hcount : getCount (files.foldl
      (fun m f => if f.parsed.version ≠ [] then bumpCount m f.parsed.version else m) []) v
      = files.countP fun f => decide (f.parsed.version = v) := by
    rw [getCount_fold files [] v hv]
    simp [getCount]
  have hgt : 1 < getCount (files.foldl
      (fun m f => if f.parsed.version ≠ [] then bumpCount m f.parsed.version else m) []) v := by
    rw [hcount]
    omega
  have hdups : v ∈ (analyzeFiles files).duplicateVersions := by
    show v ∈ ((files.foldl
        (fun m f => if f.parsed.version ≠ [] then bumpCount m f.parsed.version else m)
        []).map (·.1)).filter fun u => 1 < getCount (files.foldl
          (fun m f => if f.parsed.version ≠ [] then bumpCount m f.parsed.version else m) []) u
    refine List.mem_filter.mpr ⟨getCount_pos_key_mem _ _ (by omega), by simpa using hgt⟩
  have herr : dupVersionError v ∈ (analyzeFiles files).errors := by
    show dupVersionError v ∈
      ((files.map fun f =>
        if f.parsed.hasValidStructure then []
        else f.parsed.errors.map (mkParseError f.filename)).flatten
      ++ (((files.foldl
          (fun m f => if f.parsed.version ≠ [] then bumpCount m f.parsed.version else m)
          []).map (·.1)).filter fun u => 1 < getCount (files.foldl
            (fun m f => if f.parsed.version ≠ [] then bumpCount m f.parsed.version else m)
            []) u).map dupVersionError)
    exact List.mem_append.mpr (Or.inr (List.mem_map.mpr ⟨v, hdups, rfl⟩))
  refine ⟨hmodel, hdups, herr, rfl, fun f hf hvalid => ?_⟩
  show mkChainMigration f ∈ files.filterMap fun f =>
    if f.parsed.hasValidStructure then some (mkChainMigration f) else none
  exact List.mem_filterMap.mpr ⟨f, hf, by rw [if_pos hvalid]⟩

/-- Witness for C5: both files of `fsDup` carry version `20240101000000`. -/
theorem analyzeMigrations_duplicate_version_witness :
    parseMigrationFilesModel fsDup = Except.ok [dupFileA, dupFileB] ∧
    ¬ ("20240101000000".data) = ([] : Str) ∧
    2 ≤ List.countP (fun f => decide (f.parsed.version = ("20240101000000".data)))
      [dupFileA, dupFileB] ∧
    (analyzeMigrationsModel fsDup = Except.ok (analyzeFiles [dupFileA, dupFileB]) ∧
      ("20240101000000".data) ∈ (analyzeFiles [dupFileA, dupFileB]).duplicateVersions ∧
      dupVersionError ("20240101000000".data) ∈ (analyzeFiles [dupFileA, dupFileB]).errors ∧
      (analyzeFiles [dupFileA, dupFileB]).totalFiles
        = ([dupFileA, dupFileB] : List MigrationFile).length ∧
      ∀ f ∈ ([dupFileA, dupFileB] : List MigrationFile), f.parsed.hasValidStructure = true →
        mkChainMigration f ∈ (analyzeFiles [dupFileA, dupFileB]).migrationChain) :=
  ⟨rfl, by decide, by decide,
    analyzeMigrations_duplicate_version fsDup [dupFileA, dupFileB] rfl ("20240101000000".data)
      (by decide) (by decide)⟩

/-! ### C7: what the loader actually includes -/

theorem map_filename_of_mk (g : Str → Str) (l : List Str) :
    ((l.map fun filename => ({ filename := filename, content := g filename,
                               parsed := parseMigrationContent filename (g filename) } :
        MigrationFile)).map
      fun f => f.filename) = l := by
  induction l with
  | nil => rfl
  | cons a t ih => simp only [List.map_cons, ih]

/-- C7 counterexample: `foo.sql` does not match `^\d{14}_.+\.sql$`, yet the
loader returns a record for it, with the empty version string. -/
theorem loader_pattern_counterexample :
    parseMigrationFilesModel fsBad = Except.ok [fileBad] ∧
    fileBad.filename = ("foo.sql".data) ∧
    fileBad.parsed.version = [] ∧
    ¬ (fileBad.parsed.version.length = 14 ∧ fileBad.parsed.version.all Char.isDigit = true) :=
  ⟨rfl, by decide, by decide, by decide⟩

/-- C7 (amended): the loader includes exactly the listed files ending in
`.sql` — no 14-digit check — and each record's version is the leading digit
run of its filename (`""` when there is none, in which case the record is
kept and an invalid-filename parse error is recorded instead). -/
theorem loader_loads_all_sql_files (fs : FileSys) (listing : List Str)
    (h : fs.listing = Except.ok listing) :
    ∃ files, parseMigrationFilesModel fs = Except.ok files ∧
      (files.map fun f => f.filename).Perm
        (listing.filter fun file => (".sql".data).isSuffixOf file) ∧
      ∀ f ∈ files, (".sql".data).isSuffixOf f.filename = true ∧
        f.parsed.version = (extractVersion f.filename).getD [] ∧
        (extractVersion f.filename = none → invalidFilenameMsg ∈ f.parsed.errors) := by
  refine ⟨List.insertionSort (fun a b => lexLe a.parsed.version b.parsed.version = true)
      ((listing.filter fun file => (".sql".data).isSuffixOf file).map fun filename =>
        ({ filename := filename, content := fs.content filename,
            parsed := parseMigrationContent filename (fs.content filename) } : MigrationFile)),
    ?_, ?_, ?_⟩
  · unfold parseMigrationFilesModel
    rw [h]
  · have hperm := (List.perm_insertionSort
      (fun a b => lexLe a.parsed.version b.parsed.version = true)
      ((listing.filter fun file => (".sql".data).isSuffixOf file).map fun filename =>
        ({ filename := filename, content := fs.content filename,
            parsed := parseMigrationContent filename (fs.content filename) } :
          MigrationFile))).map fun f => f.filename
    rw [map_filename_of_mk] at hperm
    exact hperm
  · intro f hf
    have hf' := (List.perm_insertionSort
      (fun (a b : MigrationFile) => lexLe a.parsed.version b.parsed.version = true) _).mem_iff.mp hf
    obtain ⟨fn, hfn, rfl⟩ := List.mem_map.mp hf'
    refine ⟨List.of_mem_filter hfn, rfl, fun hnone => ?_⟩
    show invalidFilenameMsg ∈ (parseMigrationContent fn (fs.content fn)).errors
    simp [parseMigrationContent, hnone]

/-- Witness for the amended C7 at a two-file listing with one non-`.sql`
entry and one digitless `.sql` name. -/
theorem loader_loads_all_sql_files_witness :
    fsBad.listing = Except.ok ["foo.sql".data] ∧
    (∃ files, parseMigrationFilesModel fsBad = Except.ok files ∧
      (files.map fun f => f.filename).Perm
        ((["foo.sql".data] : List Str).filter fun file => (".sql".data).isSuffixOf file) ∧
      ∀ f ∈ files, (".sql".data).isSuffixOf f.filename = true ∧
        f.parsed.version = (extractVersion f.filename).getD [] ∧
        (extractVersion f.filename = none → invalidFilenameMsg ∈ f.parsed.errors)) :=
  ⟨rfl, loader_loads_all_sql_files fsBad ["foo.sql".data] rfl⟩

/-! ### String lemmas for the round-trip theorem (C4) -/

theorem splitChar_ne_nil (sep : Char) (s : Str) : ¬ splitChar sep s = [] := by
  induction s with
  | nil => simp [splitChar]
  | cons c rest ih =>
    unfold splitChar
    by_cases hc : c = sep
    · simp [hc]
    · simp only [if_neg hc]
      cases hsc : splitChar sep rest with
      | nil => simp
      | cons l ls => simp

theorem splitChar_append (sep : Char) (a b : Str) :
    splitChar sep (a ++ sep :: b) = splitChar sep a ++ splitChar sep b := by
  induction a with
  | nil => simp [splitChar]
  | cons c a' ih =>
    by_cases hc : c = sep
    · simp [splitChar, hc, ih]
    · obtain ⟨l0, ls0, hsc⟩ : ∃ l0 ls0, splitChar sep a' = l0 :: ls0 := by
        cases hx : splitChar sep a' with
        | nil => exact absurd hx (splitChar_ne_nil sep a')
        | cons l ls => exact ⟨l, ls, rfl⟩
      simp [splitChar, if_neg hc, ih, hsc]

theorem flatten_splitChar_nl (s : Str) :
    ((splitChar '\n' s).map fun l => l ++ ['\n']).flatten = s ++ ['\n'] := by
  induction s with
  | nil => rfl
  | cons c rest ih =>
    by_cases hc : c = '\n'
    · subst hc
      simp [splitChar, ih]
    · obtain ⟨l0, ls0, hsc⟩ : ∃ l0 ls0, splitChar '\n' rest = l0 :: ls0 := by
        cases hx : splitChar '\n' rest with
        | nil => exact absurd hx (splitChar_ne_nil '\n' rest)
        | cons l ls => exact ⟨l, ls, rfl⟩
      rw [hsc] at ih
      simp only [List.map_cons, List.flatten_cons, List.append_assoc, List.cons_append,
        List.nil_append] at ih
      simp only [splitChar, if_neg hc, hsc, List.map_cons, List.flatten_cons, List.cons_append,
        List.nil_append, List.append_assoc]
      rw [ih]

theorem splitChar_head (sep : Char) (s : Str) :
    ∃ l ls, splitChar sep s = l :: ls ∧ l <+: s := by
  induction s with
  | nil => exact ⟨[], [], rfl, List.nil_prefix⟩
  | cons c rest ih =>
    by_cases hc : c = sep
    · exact ⟨[], splitChar sep rest, by simp [splitChar, hc], List.nil_prefix⟩
    · obtain ⟨l, ls, hsc, hpfx⟩ := ih
      refine ⟨c :: l, ls, by simp [splitChar, if_neg hc, hsc], ?_⟩
      obtain ⟨t, ht⟩ := hpfx
      exact ⟨t, by rw [← ht]; rfl⟩

theorem mem_splitChar_within (sep : Char) (s ℓ : Str) (h : ℓ ∈ splitChar sep s) :
    ℓ <:+: s := by
  induction s generalizing ℓ with
  | nil =>
    simp [splitChar] at h
    subst h
    exact List.nil_infix
  | cons c rest ih =>
    unfold splitChar at h
    by_cases hc : c = sep
    · rw [if_pos hc] at h
      rcases List.mem_cons.mp h with hh | hh
      · subst hh
        exact List.nil_infix
      · exact (ih ℓ hh).trans (List.suffix_cons c rest).isInfix
    · rw [if_neg hc] at h
      obtain ⟨l0, ls0, hsc, hpfx⟩ := splitChar_head sep rest
      rw [hsc] at h
      rcases List.mem_cons.mp h with hh | hh
      · subst hh
        obtain ⟨t, ht⟩ := hpfx
        have hpp : (c :: l0) <+: (c :: rest) := ⟨t, by rw [← ht]; rfl⟩
        exact hpp.isInfix
      · have hmem : ℓ ∈ splitChar sep rest := by
          rw [hsc]
          exact List.mem_cons_of_mem _ hh
        exact (ih ℓ hmem).trans (List.suffix_cons c rest).isInfix

theorem trim_within (l : Str) : trim l <:+: l := by
  have h1 : (l.reverse.dropWhile Char.isWhitespace).reverse <+: l := by
    have h2 := List.reverse_prefix.mpr (List.dropWhile_suffix (l := l.reverse) Char.isWhitespace)
    rwa [List.reverse_reverse] at h2
  exact ((List.dropWhile_suffix Char.isWhitespace).isInfix).trans h1.isInfix

theorem marker_in_line (p ℓ : Str) (h : p.isPrefixOf (trim ℓ) = true) : p <:+: ℓ := by
  have h1 : p <+: trim ℓ := List.isPrefixOf_iff_prefix.mp h
  exact h1.isInfix.trans (trim_within ℓ)

theorem countOccur_pos_of_head (p s : Str) (hne : ¬ p = []) (h : p.isPrefixOf s = true) :
    0 < countOccur p s := by
  cases s with
  | nil =>
    cases p with
    | nil => exact absurd rfl hne
    | cons c cs => simp [List.isPrefixOf] at h
  | cons c rest =>
    show 0 < (if p.isPrefixOf (c :: rest) then 1 else 0) + countOccur p rest
    rw [h]
    simp

theorem within_countOccur_pos (p s : Str) (hne : ¬ p = []) (h : p <:+: s) :
    0 < countOccur p s := by
  obtain ⟨pre, post, hs⟩ := h
  subst hs
  induction pre with
  | nil =>
    simp only [List.nil_append]
    exact countOccur_pos_of_head p (p ++ post) hne
      (List.isPrefixOf_iff_prefix.mpr (List.prefix_append p post))
  | cons c pre' ih =>
    have : 0 < countOccur p (pre' ++ p ++ post) := ih
    show 0 < (if p.isPrefixOf (c :: (pre' ++ p ++ post)) then 1 else 0)
      + countOccur p (pre' ++ p ++ post)
    omega

theorem isPrefixOf_append_nl (p : Str) (hnl : ¬ '\n' ∈ p) (x y : Str) :
    p.isPrefixOf (x ++ '\n' :: y) = p.isPrefixOf x := by
  induction p generalizing x with
  | nil => simp [List.isPrefixOf]
  | cons c cs ih =>
    have hc : ¬ c = '\n' := fun hh => hnl (hh ▸ List.mem_cons_self c cs)
    have hcs : ¬ '\n' ∈ cs := fun hh => hnl (List.mem_cons_of_mem c hh)
    cases x with
    | nil => simp [List.isPrefixOf, hc]
    | cons d x' =>
      show ((c == d) && cs.isPrefixOf (x' ++ '\n' :: y)) = ((c == d) && cs.isPrefixOf x')
      rw [ih hcs x']

theorem countOccur_append_nl (p : Str) (hne : ¬ p = []) (hnl : ¬ '\n' ∈ p) (x y : Str) :
    countOccur p (x ++ '\n' :: y) = countOccur p x + countOccur p y := by
  induction x with
  | nil =>
    simp only [List.nil_append]
    have hpf : p.isPrefixOf ('\n' :: y) = false := by
      have h0 := isPrefixOf_append_nl p hnl [] y
      cases p with
      | nil => exact absurd rfl hne
      | cons c cs => simpa [List.isPrefixOf] using h0
    show (if p.isPrefixOf ('\n' :: y) then 1 else 0) + countOccur p y
      = countOccur p [] + countOccur p y
    rw [hpf]
    simp [countOccur, hne]
  | cons c x' ih =>
    have hpf := isPrefixOf_append_nl p hnl (c :: x') y
    show (if p.isPrefixOf ((c :: x') ++ '\n' :: y) then 1 else 0) + countOccur p (x' ++ '\n' :: y)
      = ((if p.isPrefixOf (c :: x') then 1 else 0) + countOccur p x') + countOccur p y
    rw [hpf, ih]
    omega

theorem splitChar_cons_self (sep : Char) (b : Str) :
    splitChar sep (sep :: b) = [] :: splitChar sep b := by
  simp [splitChar]

theorem countOccur_cons_nl (p : Str) (hne : ¬ p = []) (hnl : ¬ '\n' ∈ p) (y : Str) :
    countOccur p ('\n' :: y) = countOccur p y := by
  have h0 := countOccur_append_nl p hne hnl [] y
  simp only [List.nil_append] at h0
  rw [h0]
  simp [countOccur, hne]

theorem sectionStep_up_line (u d ℓ : Str)
    (hu : upMarker.isPrefixOf (trim ℓ) = false)
    (hd : downMarker.isPrefixOf (trim ℓ) = false) :
    sectionStep (Sect.secUp, u, d) ℓ = (Sect.secUp, u ++ ℓ ++ ['\n'], d) := by
  simp [sectionStep, hu, hd]

theorem sectionStep_down_line (u d ℓ : Str)
    (hu : upMarker.isPrefixOf (trim ℓ) = false)
    (hd : downMarker.isPrefixOf (trim ℓ) = false) :
    sectionStep (Sect.secDown, u, d) ℓ = (Sect.secDown, u, d ++ ℓ ++ ['\n']) := by
  simp [sectionStep, hu, hd]

theorem sectionStep_marker_down (st : Sect × Str × Str) :
    sectionStep st downMarker = (Sect.secDown, st.2.1, st.2.2) := by
  simp [sectionStep, show upMarker.isPrefixOf (trim downMarker) = false from by decide,
    show downMarker.isPrefixOf (trim downMarker) = true from by decide]

theorem foldl_sectionStep_up (L : List Str) (u d : Str)
    (h : ∀ ℓ ∈ L, upMarker.isPrefixOf (trim ℓ) = false
      ∧ downMarker.isPrefixOf (trim ℓ) = false) :
    L.foldl sectionStep (Sect.secUp, u, d)
      = (Sect.secUp, u ++ (L.map fun l => l ++ ['\n']).flatten, d) := by
  induction L generalizing u with
  | nil => simp
  | cons ℓ L' ih =>
    obtain ⟨hu, hd⟩ := h ℓ (List.mem_cons_self _ _)
    rw [List.foldl_cons, sectionStep_up_line u d ℓ hu hd,
      ih (u ++ ℓ ++ ['\n']) fun x hx => h x (List.mem_cons_of_mem _ hx)]
    simp [List.append_assoc]

theorem foldl_sectionStep_down (L : List Str) (u d : Str)
    (h : ∀ ℓ ∈ L, upMarker.isPrefixOf (trim ℓ) = false
      ∧ downMarker.isPrefixOf (trim ℓ) = false) :
    L.foldl sectionStep (Sect.secDown, u, d)
      = (Sect.secDown, u, d ++ (L.map fun l => l ++ ['\n']).flatten) := by
  induction L generalizing d with
  | nil => simp
  | cons ℓ L' ih =>
    obtain ⟨hu, hd⟩ := h ℓ (List.mem_cons_self _ _)
    rw [List.foldl_cons, sectionStep_down_line u d ℓ hu hd,
      ih (d ++ ℓ ++ ['\n']) fun x hx => h x (List.mem_cons_of_mem _ hx)]
    simp [List.append_assoc]

theorem trim_append_two_nl (s : Str) : trim (s ++ ['\n', '\n']) = trim s := by
  unfold trim
  have h : (s ++ ['\n', '\n']).reverse.dropWhile Char.isWhitespace
      = s.reverse.dropWhile Char.isWhitespace := by
    rw [show (s ++ ['\n', '\n']).reverse = '\n' :: '\n' :: s.reverse from by simp]
    rfl
  rw [h]

/-- C4 (amended): for every pair of strings in which neither marker
`-- migrate:up` nor `-- migrate:down` occurs as a substring, parsing the
output of `formatMigrationContent` returns the two inputs back modulo
surrounding whitespace, and the formatted text contains exactly one
occurrence of each marker. -/
theorem format_parse_round_trip (up down : Str)
    (h1 : countOccur upMarker up = 0) (h2 : countOccur downMarker up = 0)
    (h3 : countOccur upMarker down = 0) (h4 : countOccur downMarker down = 0) :
    parseMigrationSections (formatMigrationContent up down) = (trim up, trim down) ∧
    countOccur upMarker (formatMigrationContent up down) = 1 ∧
    countOccur downMarker (formatMigrationContent up down) = 1 := by
  have hnempU : ¬ upMarker = [] := by decide
  have hnempD : ¬ downMarker = [] := by decide
  have hnlU : ¬ '\n' ∈ upMarker := by decide
  have hnlD : ¬ '\n' ∈ downMarker := by decide
  have hfmt : formatMigrationContent up down
      = upMarker ++ '\n' ::
          (up ++ '\n' :: '\n' :: (downMarker ++ '\n' :: (down ++ '\n' :: ([] : Str)))) := by
    simp [formatMigrationContent]
  have lineCond : ∀ (s : Str), countOccur upMarker s = 0 → countOccur downMarker s = 0 →
      ∀ ℓ ∈ splitChar '\n' s,
        upMarker.isPrefixOf (trim ℓ) = false ∧ downMarker.isPrefixOf (trim ℓ) = false := by
    intro s hsu hsd ℓ hl
    constructor
    · cases hx : upMarker.isPrefixOf (trim ℓ) with
      | false => rfl
      | true =>
        exfalso
        have hwin := (marker_in_line _ _ hx).trans (mem_splitChar_within '\n' s ℓ hl)
        have := within_countOccur_pos upMarker s hnempU hwin
        omega
    · cases hx : downMarker.isPrefixOf (trim ℓ) with
      | false => rfl
      | true =>
        exfalso
        have hwin := (marker_in_line _ _ hx).trans (mem_splitChar_within '\n' s ℓ hl)
        have := within_countOccur_pos downMarker s hnempD hwin
        omega
  have hparse : parseMigrationSections (formatMigrationContent up down)
      = (trim up, trim down) := by
    show (trim ((splitChar '\n' (formatMigrationContent up down)).foldl sectionStep
        (Sect.secNone, [], [])).2.1,
      trim ((splitChar '\n' (formatMigrationContent up down)).foldl sectionStep
        (Sect.secNone, [], [])).2.2) = (trim up, trim down)
    rw [hfmt,
      splitChar_append '\n' upMarker
        (up ++ '\n' :: '\n' :: (downMarker ++ '\n' :: (down ++ '\n' :: ([] : Str)))),
      splitChar_append '\n' up
        ('\n' :: (downMarker ++ '\n' :: (down ++ '\n' :: ([] : Str)))),
      splitChar_cons_self,
      splitChar_append '\n' downMarker (down ++ '\n' :: ([] : Str)),
      splitChar_append '\n' down ([] : Str),
      show splitChar '\n' upMarker = [upMarker] from by decide,
      show splitChar '\n' downMarker = [downMarker] from by decide,
      show splitChar '\n' ([] : Str) = [[]] from rfl]
    rw [List.foldl_append,
      show ([upMarker] : List Str).foldl sectionStep (Sect.secNone, ([] : Str), ([] : Str))
        = (Sect.secUp, ([] : Str), ([] : Str)) from by decide]
    rw [List.foldl_append, foldl_sectionStep_up (splitChar '\n' up) [] [] (lineCond up h1 h2),
      flatten_splitChar_nl]
    simp only [List.nil_append]
    rw [List.foldl_cons,
      sectionStep_up_line _ _ [] (by decide) (by decide)]
    rw [List.foldl_append, List.foldl_cons, List.foldl_nil, sectionStep_marker_down]
    rw [List.foldl_append, foldl_sectionStep_down (splitChar '\n' down) _ _ (lineCond down h3 h4),
      flatten_splitChar_nl]
    rw [List.foldl_cons, List.foldl_nil,
      sectionStep_down_line _ _ [] (by decide) (by decide)]
    simp only [List.append_nil, List.nil_append, List.append_assoc, List.cons_append]
    rw [trim_append_two_nl, trim_append_two_nl]
  have hcu : countOccur upMarker (formatMigrationContent up down) = 1 := by
    rw [hfmt,
      countOccur_append_nl upMarker hnempU hnlU upMarker _,
      countOccur_append_nl upMarker hnempU hnlU up _,
      countOccur_cons_nl upMarker hnempU hnlU _,
      countOccur_append_nl upMarker hnempU hnlU downMarker _,
      countOccur_append_nl upMarker hnempU hnlU down _,
      h1, h3]
    decide
  have hcd : countOccur downMarker (formatMigrationContent up down) = 1 := by
    rw [hfmt,
      countOccur_append_nl downMarker hnempD hnlD upMarker _,
      countOccur_append_nl downMarker hnempD hnlD up _,
      countOccur_cons_nl downMarker hnempD hnlD _,
      countOccur_append_nl downMarker hnempD hnlD downMarker _,
      countOccur_append_nl downMarker hnempD hnlD down _,
      h2, h4]
    decide
  exact ⟨hparse, hcu, hcd⟩

/-- C4 counterexample: with `up = "-- migrate:down"` the round trip fails —
the parsed up section is empty, not `up`, and the formatted text contains
the `-- migrate:down` marker twice. -/
theorem format_parse_round_trip_counterexample :
    trim ceUp = ceUp ∧
    ¬ (parseMigrationSections (formatMigrationContent ceUp ceDown)).1 = trim ceUp ∧
    ¬ countOccur downMarker (formatMigrationContent ceUp ceDown) = 1 ∧
    (parseMigrationSections (formatMigrationContent ceUp ceDown)).1 = [] ∧
    countOccur downMarker (formatMigrationContent ceUp ceDown) = 2 :=
  ⟨by decide, by decide, by decide, by decide, by decide⟩

/-- Witness for the amended C4 at marker-free up/down SQL. -/
theorem format_parse_round_trip_witness :
    countOccur upMarker goodUp = 0 ∧ countOccur downMarker goodUp = 0 ∧
    countOccur upMarker goodDown = 0 ∧ countOccur downMarker goodDown = 0 ∧
    (parseMigrationSections (formatMigrationContent goodUp goodDown)
        = (trim goodUp, trim goodDown) ∧
      countOccur upMarker (formatMigrationContent goodUp goodDown) = 1 ∧
      countOccur downMarker (formatMigrationContent goodUp goodDown) = 1) :=
  ⟨by decide, by decide, by decide, by decide,
    format_parse_round_trip goodUp goodDown (by decide) (by decide) (by decide) (by decide)⟩

end PgSchemaSage
